import Mathlib

/-!
Verification development for the job-scraper repository
(src/scraper_filters.py and src/expert_job_scraper.py).

The Python source is shallowly embedded: pure helpers become Lean
functions on String/List, the per-session mutable sets of the scraper
class become an explicit state record threaded through the functions,
and the external effects (the crawl4ai fetcher, the Selenium browser,
url joining done by urllib) are supplied by a World oracle.  Python
substring tests (needle in hay) are modelled by strHasSub, str.strip by
pyStrip, str.lower by lowerStr.
-/

set_option maxRecDepth 100000

/-! ## Basic string helpers mirroring Python primitives -/

/-- Model of Python list/str prefix test: charsStartWith needle hay is
true when needle is an initial segment of hay. -/
def charsStartWith : List Char → List Char → Bool
  | [], _ => true
  | _ :: _, [] => false
  | a :: as, b :: bs => a == b && charsStartWith as bs

/-- Model of the Python substring test needle in hay on char lists. -/
def charsHasSub (needle : List Char) : List Char → Bool
  | [] => charsStartWith needle []
  | c :: cs => charsStartWith needle (c :: cs) || charsHasSub needle cs

/-- Python needle in hay for strings. -/
def strHasSub (hay needle : String) : Bool :=
  charsHasSub needle.data hay.data

/-- Python str.lower (ASCII-faithful). -/
def lowerStr (s : String) : String :=
  String.mk (s.data.map Char.toLower)

/-- Python str.strip: drop whitespace from both ends. -/
def pyStripChars (l : List Char) : List Char :=
  ((l.dropWhile Char.isWhitespace).reverse.dropWhile Char.isWhitespace).reverse

/-- Python str.strip on strings. -/
def pyStrip (s : String) : String :=
  String.mk (pyStripChars s.data)

/-- Helper for wordCount: counts maximal non-whitespace runs; the flag
records whether the scan is inside a word. -/
def wordCountGo : List Char → Bool → Nat
  | [], _ => 0
  | c :: cs, inw =>
    if c.isWhitespace then wordCountGo cs false
    else (if inw then 0 else 1) + wordCountGo cs true

/-- Python len(s.split()): number of whitespace-separated tokens. -/
def wordCount (s : String) : Nat :=
  wordCountGo s.data false

/-- Chars of hay strictly before the first occurrence of needle
(all of hay when needle does not occur): Python hay.split(needle)[0]. -/
def charsBefore (needle : List Char) : List Char → List Char
  | [] => []
  | c :: cs =>
    if charsStartWith needle (c :: cs) then []
    else c :: charsBefore needle cs

/-- Python hay.split(needle)[0] on strings. -/
def strBefore (hay needle : String) : String :=
  String.mk (charsBefore needle.data hay.data)

/-- Python str.startswith with a tuple of alternatives. -/
def startsWithAny (s : String) (pres : List String) : Bool :=
  pres.any (fun p => charsStartWith p.data s.data)

/-! ## scraper_filters.py -/

/-- sanitize_url from src/scraper_filters.py: strip whitespace, reject
empty strings, mailto:/tel:/javascript:/data:/fragment-only URLs and
anything that is not http(s). -/
def sanitize_url (url : String) : Option String :=
  if url = "" then none
  else
    let u := pyStrip url
    if startsWithAny (lowerStr u) ["mailto:", "tel:", "javascript:", "data:", "#"] then none
    else if !(startsWithAny (lowerStr u) ["http://", "https://"]) then none
    else some u

/-- Allow-listed internship terms from matches_target_role. -/
def allowedTerms : List String :=
  ["intern", "internship", "co-op", "trainee", "graduate", "student", "apprentice", "fellowship"]

/-- Seniority exclusion terms from matches_target_role. -/
def forbiddenTerms : List String :=
  ["senior", "staff", "lead", "principal", "architect",
   "manager", "director", "vp", "head of", "executive",
   "sr.", "sr ", "chief", "partner"]

/-- matches_target_role from src/scraper_filters.py. -/
def matches_target_role (title : String) (mode : String) : Bool :=
  if title = "" then false
  else
    let title_lower := lowerStr title
    if mode = "internship" then
      if !(allowedTerms.any (fun t => strHasSub title_lower t)) then false
      else if forbiddenTerms.any (fun t => strHasSub title_lower t) then false
      else true
    else true

/-- Junk terms of is_valid_job (ad / privacy / cookie detection). -/
def junkTerms : List String :=
  ["youradchoices", "privacy policy", "cookie policy", "terms of use",
   "do not sell my info", "opt out", "digital advertising alliance",
   "interest-based ads", "browser cookies", "javascript error"]

/-! ## Job records -/

/-- The normalized job record dict produced by the extractor.  The
Python dicts always carry the key job_title (never the alternative key
title consulted by is_valid_job as a fallback), likewise
job_description; job_id is absent (None) on every record the extractor
builds, but _deduplicate_jobs reads it, so it is a field here. -/
structure Job where
  job_title : String
  company : String
  location : String
  experience : String
  job_description : String
  responsibilities : String
  skills : List String
  source_url : String
  job_id : Option String
deriving Repr, DecidableEq

/-- is_valid_job from src/scraper_filters.py over a Job record. -/
def is_valid_job (job : Job) : Bool :=
  let title := job.job_title
  let company := job.company
  let desc := job.job_description
  if title = "" || company = "" then false
  else
    let text_check := lowerStr (title ++ " " ++ company)
    if junkTerms.any (fun t => strHasSub text_check t) then false
    else if desc.length < 50 then false
    else if strHasSub (lowerStr desc) "privacy policy" && desc.length < 500 &&
            !(strHasSub (lowerStr desc) "responsibilities") then false
    else true

/-! ## URL guard of expert_job_scraper.py -/

/-- _get_job_detail_url: truncate at the first occurrence of the
substring /apply, else at the first occurrence of /application. -/
def _get_job_detail_url (url : String) : String :=
  if strHasSub url "/apply" then strBefore url "/apply"
  else if strHasSub url "/application" then strBefore url "/application"
  else url

/-- Blocklist terms of should_skip_url. -/
def skippedTerms : List String :=
  ["login", "sign-in", "my-profile", "benefits",
   "skip-to-main", "candidateexperience",
   "auth", "sso", "oraclecloud.com",
   "privacy", "terms", "cookie"]

/-- should_skip_url: sanitize first (reject on failure), then block any
URL whose lowercase form contains a blocklisted substring. -/
def should_skip_url (url : String) : Bool :=
  match sanitize_url url with
  | none => true
  | some u => skippedTerms.any (fun t => strHasSub (lowerStr u) t)

/-- _is_spa_url: static SPA/ATS indicator list. -/
def _is_spa_url (url : String) : Bool :=
  ["myworkdayjobs.com", "taleo.net", "icims.com", "greenhouse.io",
   "lever.co", "startup.jobs", "#/job", "#search"].any
    (fun ind => strHasSub (lowerStr url) ind)

/-- _is_apply_url: substring check for apply pages. -/
def _is_apply_url (url : String) : Bool :=
  strHasSub url "/apply" || strHasSub url "/application"

/-! ## Scoring and validation of expert_job_scraper.py -/

/-- Invalid-title vocabulary of _is_invalid_title. -/
def invalidTitleTerms : List String :=
  ["apply", "provide", "upload resume", "join us", "login", "create account",
   "careers", "jobs", "work with us", "search", "results", "filter",
   "please wait", "loading", "application", "job title not available",
   "profile", "member", "blog", "news", "events"]

/-- _is_invalid_title from expert_job_scraper.py. -/
def _is_invalid_title (title : String) : Bool :=
  if title = "" || title.length < 3 then true
  else invalidTitleTerms.any (fun i => strHasSub (lowerStr title) i)

/-- _score_job (Step 8 confidence scoring).  Note: this function is
dead code at runtime, because the class defines _validate_job twice and
the later definition, which never consults the score, shadows the
score-based one. -/
def _score_job (job : Job) : Int :=
  let title := lowerStr job.job_title
  let desc := lowerStr job.job_description
  let s1 : Int := if title.length > 3 && !(_is_invalid_title title) then 2 else 0
  let s2 : Int := if desc.length > 200 then 2 else 0
  let s3 : Int := if job.skills.length > 0 then 1 else 0
  let s4 : Int :=
    if job.location ≠ "" && lowerStr job.location ≠ "location not specified" then 1 else 0
  let s5 : Int :=
    if ["engineer", "developer", "manager", "analyst", "consultant",
        "specialist", "director", "intern"].any (fun r => strHasSub title r)
    then 1 else 0
  let n1 : Int :=
    if ["employee benefits", "our culture", "frequently asked questions"].any
        (fun x => strHasSub desc x)
    then 3 else 0
  let n2 : Int :=
    if strHasSub desc "application form" || strHasSub desc "upload resume" then 5 else 0
  s1 + s2 + s3 + s4 + s5 - n1 - n2

/-- _validate_country from expert_job_scraper.py. -/
def _validate_country (job : Job) (country : String) : Bool :=
  let loc := lowerStr job.location
  let country_lower := lowerStr country
  strHasSub loc country_lower || strHasSub loc "remote" ||
    strHasSub loc "not specified" || strHasSub loc "worldwide"

/-- The earlier _validate_job definition (line 856, RULE #5), which
requires _score_job ≥ 3 and then the country gate.  It is shadowed at
runtime by the later definition of the same name and is never called. -/
def _validate_job_scoreBased (job : Job) (country : String) : Bool :=
  if _score_job job < 3 then false
  else if country ≠ "" && !(_validate_country job country) then false
  else true

/-- The effective _validate_job (line 1195, the later definition that
Python keeps): basic quality filter, strict internship role gate, then
the country gate.  The confidence score is not consulted. -/
def _validate_job (job : Job) (country : String) : Bool :=
  if !(is_valid_job job) then false
  else if !(matches_target_role job.job_title "internship") then false
  else _validate_country job country

/-! ## Deduplication -/

/-- Composite fallback key of _deduplicate_jobs. -/
def compositeKey (j : Job) : String :=
  j.job_title ++ "_" ++ j.location ++ "_" ++ j.company

/-- Key selection of _deduplicate_jobs: the stable job_id when present,
non-empty and not already used, else the composite key. -/
def dedupKey (seen : List String) (j : Job) : String :=
  match j.job_id with
  | none => compositeKey j
  | some id => if id = "" || seen.contains id then compositeKey j else id

/-- Recursive core of _deduplicate_jobs: seen is the key set of the
insertion-ordered dict unique_jobs. -/
def dedupAux (seen : List String) : List Job → List Job
  | [] => []
  | j :: rest =>
    let key := dedupKey seen j
    if seen.contains key then dedupAux seen rest
    else j :: dedupAux (key :: seen) rest

/-- _deduplicate_jobs from expert_job_scraper.py. -/
def _deduplicate_jobs (jobs : List Job) : List Job :=
  dedupAux [] jobs

/-! ## Field extraction helpers of the Job Extractor -/

/-- Collapse whitespace runs to single spaces: re.sub of one-or-more
whitespace to a space.  The flag records whether the previous input
char was whitespace (already emitted as one space). -/
def collapseWsGo : List Char → Bool → List Char
  | [], _ => []
  | c :: cs, prevWs =>
    if c.isWhitespace then
      if prevWs then collapseWsGo cs true else ' ' :: collapseWsGo cs true
    else c :: collapseWsGo cs false

/-- Truncate at the first case-insensitive occurrence of apply now
(the regex apply now followed by anything up to the end, replaced by
nothing, after whitespace collapsing has removed newlines). -/
def cutApplyNowChars : List Char → List Char
  | [] => []
  | c :: cs =>
    if charsStartWith ("apply now".data) ((c :: cs).map Char.toLower) then []
    else c :: cutApplyNowChars cs

/-- _clean_description: the input is already plain text (the
BeautifulSoup get_text step of the source is the identity on text);
collapse whitespace, truncate trailing apply-now boilerplate, strip. -/
def _clean_description (text : String) : String :=
  pyStrip (String.mk (cutApplyNowChars (collapseWsGo text.data false)))

/-- Skill vocabulary of _extract_skills (four regex groups flattened). -/
def skillKeywords : List String :=
  ["Python", "Java", "JavaScript", "TypeScript", "C++", "C#", "Ruby", "PHP", "Go",
   "Rust", "Kotlin", "Swift", "React", "Angular", "Vue", "Django", "Flask", "Spring",
   "Node.js", "Express", "AWS", "Azure", "GCP", "Docker", "Kubernetes", "Git",
   "Jenkins", "SQL", "MySQL", "PostgreSQL", "MongoDB", "Redis", "Elasticsearch"]

/-- _extract_skills: case-insensitive vocabulary scan over the
description, returned deduplicated (the source collects regex matches
into a set; word boundaries are approximated by substring occurrence,
and the set is returned in vocabulary order). -/
def _extract_skills (description : String) : List String :=
  skillKeywords.filter (fun k => strHasSub (lowerStr description) (lowerStr k))

/-- Replace every occurrence of needle (with fuel bounded by the hay
length): Python str.replace. -/
def replaceAllGo (needle repl : List Char) : Nat → List Char → List Char
  | 0, _ => []
  | _ + 1, [] => []
  | n + 1, c :: cs =>
    if needle ≠ [] && charsStartWith needle (c :: cs) then
      repl ++ replaceAllGo needle repl n ((c :: cs).drop needle.length)
    else c :: replaceAllGo needle repl n cs

/-- Python hay.replace(needle, repl). -/
def strReplace (hay needle repl : String) : String :=
  String.mk (replaceAllGo needle.data repl.data hay.data.length hay.data)

/-- Chars of hay after the first occurrence of needle (empty when
needle does not occur). -/
def charsAfter (needle : List Char) : List Char → List Char
  | [] => []
  | c :: cs =>
    if charsStartWith needle (c :: cs) then (c :: cs).drop needle.length
    else charsAfter needle cs

/-- Python str.title(): uppercase the first char of each alphabetic
run, lowercase the rest. -/
def titleCaseGo : List Char → Bool → List Char
  | [], _ => []
  | c :: cs, prevAlpha =>
    if c.isAlpha then
      (if prevAlpha then c.toLower else c.toUpper) :: titleCaseGo cs true
    else c :: titleCaseGo cs false

/-- Python str.title() on strings. -/
def titleCase (s : String) : String :=
  String.mk (titleCaseGo s.data false)

/-- urlparse(url).netloc: the authority part after the scheme separator
and before the first slash, question mark or hash (empty when the URL
has no scheme separator). -/
def netlocOf (url : String) : String :=
  if strHasSub url "://" then
    String.mk ((charsAfter "://".data url.data).takeWhile
      (fun c => c ≠ '/' && c ≠ '?' && c ≠ '#'))
  else ""

/-- Domain-derived company fallback of _extract_company:
urlparse(url).netloc.replace(www., nothing).split(.)[0].title(). -/
def domainCompany (job_url : String) : String :=
  titleCase (strBefore (strReplace (netlocOf job_url) "www." "") ".")

/-- Abstraction of one job-detail DOM container as consumed by the
field extractors.  titleCands holds the texts of the title-selector
matches in the priority order of _extract_job_title; descFirst the text
of the first matched description selector (workday then generic, in
the order of _extract_description); descFallbackText the text of the
parent block of the first responsibilities/requirements heading;
locationText and respText abstract the results of _extract_location
and _extract_responsibilities wholesale (their DOM heuristics are not
the subject of any claim); companySel the text of the first
company-selector match whose text is longer than one char. -/
structure Container where
  text : String
  titleCands : List String
  descFirst : Option String
  descFallbackText : Option String
  locationText : String
  respText : String
  companySel : Option String
deriving Repr

/-- Selector loop of _extract_job_title: first candidate whose stripped
text is non-empty and not invalid; else the not-available sentinel. -/
def titleFromCands : List String → String
  | [] => "Job Title Not Available"
  | t :: rest =>
    let t0 := pyStrip t
    if t0 ≠ "" && !(_is_invalid_title t0) then t0 else titleFromCands rest

/-- _extract_job_title over the container abstraction. -/
def _extract_job_title (c : Container) : String :=
  titleFromCands c.titleCands

/-- _extract_description: the first matched selector wins even when its
cleaned text is empty; else the heading-parent fallback; else the
placeholder sentinel. -/
def _extract_description (c : Container) : String :=
  match c.descFirst with
  | some t => _clean_description t
  | none =>
    match c.descFallbackText with
    | some t => _clean_description t
    | none => "Job description not available"

/-- _extract_company: selector result (stripped) or the titleized first
label of the URL domain. -/
def _extract_company (c : Container) (job_url : String) : String :=
  match c.companySel with
  | some t => pyStrip t
  | none => domainCompany job_url

/-- _extract_employment_type: keyword scan over container text plus
description, workplace-type labels first. -/
def _extract_employment_type (c : Container) (description : String) : String :=
  let text := lowerStr (c.text ++ " " ++ description)
  if strHasSub text "workplace type: remote" then "Remote"
  else if strHasSub text "workplace type: on-site" || strHasSub text "workplace type: onsite" then "On-site"
  else if strHasSub text "workplace type: hybrid" then "Hybrid"
  else if strHasSub text "remote" then "Remote"
  else if strHasSub text "part-time" || strHasSub text "part time" then "Part-time"
  else if strHasSub text "contract" || strHasSub text "temporary" then "Contract"
  else "Full-time"

/-! ## JSON-LD JobPosting metadata -/

/-- Minimal JSON value model for the JobPosting dictionaries consumed
by _create_job_from_json_ld: string leaves and nested dictionaries
(the fields the function reads are of these shapes; an absent key
models null). -/
inductive JVal where
  | s : String → JVal
  | d : List (String × JVal) → JVal
deriving Repr

/-- Python dict get returning the raw value. -/
def jGet (fields : List (String × JVal)) (k : String) : Option JVal :=
  (fields.find? (fun p => p.1 = k)).map Prod.snd

/-- Address-part collection of _create_job_from_json_ld: for each of
addressLocality, addressRegion, addressCountry keep a truthy string or
the truthy name of a nested dict. -/
def jsonAddressParts (addr : List (String × JVal)) : List String :=
  ["addressLocality", "addressRegion", "addressCountry"].filterMap (fun k =>
    match jGet addr k with
    | some (.s p) => if p ≠ "" then some p else none
    | some (.d pd) =>
      match jGet pd "name" with
      | some (.s n) => if n ≠ "" then some n else none
      | _ => none
    | none => none)

/-- Location of _create_job_from_json_ld.  Note: jobLocation present as
a dict makes the join of the found address parts the location, even
when that join is the empty string (address defaulting to the empty
dict behaves the same way). -/
def jsonLocation (json_data : List (String × JVal)) : String :=
  match jGet json_data "jobLocation" with
  | some (.d jl) =>
    (match jGet jl "address" with
     | some (.d addr) => String.intercalate ", " (jsonAddressParts addr)
     | some (.s a) => a
     | none => String.intercalate ", " (jsonAddressParts []))
  | some (.s l) => l
  | none => "Location not specified"

/-- _create_job_from_json_ld from expert_job_scraper.py: every field is
taken from the metadata verbatim with sentinels only for absent keys;
an empty metadata title yields an empty record title. -/
def _create_job_from_json_ld (json_data : List (String × JVal)) (job_url : String) : Job :=
  let title := match jGet json_data "title" with | some (.s t) => t | _ => ""
  let company :=
    match jGet json_data "hiringOrganization" with
    | some (.d org) =>
      (match jGet org "name" with
       | some (.s n) => n
       | _ => "Company not specified")
    | _ => "Company not specified"
  let description :=
    match jGet json_data "description" with
    | some (.s ds) => ds
    | _ => "Job description not available"
  let employment_type :=
    match jGet json_data "employmentType" with
    | some (.s e) => e
    | _ => "Full-time"
  { job_title := title,
    company := company,
    location := jsonLocation json_data,
    experience := employment_type,
    job_description := description,
    responsibilities := "",
    skills := _extract_skills description,
    source_url := job_url,
    job_id := none }

/-! ## DOM abstraction and page classification -/

/-- One job card as consumed by the crawl: text is card.get_text(),
titleEl the text of the first h2/h3/h4/a descendant when present,
rawUrl the urljoin-resolved href of the first anchor when present
(urljoin, an urllib collaborator, is abstracted into the field). -/
structure Card where
  text : String
  titleEl : Option String
  rawUrl : Option String
deriving Repr

/-- Abstraction of one fetched-and-parsed page.  jobCards is the result
of _find_job_cards (validity-filtered and capped at 20 by that
function); catLinks the result of _find_category_links with this page
URL as base, as (name, absolute url) pairs — the classifier calls it
with an empty base, which can only merge duplicates and so agrees on
emptiness; rawJobLinks the absolute URLs collected by _find_job_links
before apply-URL truncation; the Booleans and counters abstract the
DOM queries of _is_single_job_page, _is_apply_page and
_detect_and_fill_filters; jsonLd the JobPosting dict found by
_extract_json_ld; container the _find_job_container result (or the
whole soup). -/
structure Dom where
  text : String
  formsCount : Nat
  hasPearsonJobList : Bool
  hasJobDetailIndicator : Bool
  jobContentCount : Nat
  jobCards : List Card
  catLinks : List (String × String)
  rawJobLinks : List String
  hasLocationInput : Bool
  hasKeywordInput : Bool
  jsonLd : Option (List (String × JVal))
  container : Container
deriving Repr

/-- _find_job_cards over the abstraction. -/
def _find_job_cards (d : Dom) : List Card :=
  d.jobCards

/-- _find_category_links over the abstraction. -/
def _find_category_links (d : Dom) : List (String × String) :=
  d.catLinks

/-- _find_job_links: the collected anchors mapped through apply-URL
truncation, as in the source append of _get_job_detail_url. -/
def _find_job_links (d : Dom) : List String :=
  d.rawJobLinks.map _get_job_detail_url

/-- _is_single_job_page from expert_job_scraper.py. -/
def _is_single_job_page (d : Dom) : Bool :=
  if d.hasPearsonJobList then false
  else if d.hasJobDetailIndicator then true
  else d.jobContentCount > 2 && (_find_job_cards d).length == 0

/-- _is_apply_page (RULE #8): more than one form, or apply-page text
markers. -/
def _is_apply_page (d : Dom) : Bool :=
  if d.formsCount > 1 then true
  else
    ["provide your contact information", "upload resume", "application form", "recaptcha"].any
      (fun i => strHasSub (lowerStr d.text) i)

/-- The six page classifications. -/
inductive PageType where
  | JOB_DETAIL
  | JOB_LISTING
  | CAREER_GATEWAY
  | JOB_SEARCH_APP
  | CAREER_INFO
  | OTHER
deriving Repr, DecidableEq

/-- Career-marketing marker phrases of _classify_page_type. -/
def infoKeywords : List String :=
  ["employee benefits", "our culture", "frequently asked questions",
   "diversity and inclusion", "life at", "why work here"]

/-- _classify_page_type: deterministic ordered rule evaluation, the
CAREER_INFO hard stop first. -/
def _classify_page_type (d : Dom) (url : String) : PageType :=
  let text := lowerStr d.text
  if (infoKeywords.any (fun k => strHasSub text k)) && (_find_job_cards d).length == 0 then
    .CAREER_INFO
  else if (strHasSub url "#/job" || strHasSub url "#search" ||
           strHasSub url "myworkday" || strHasSub url "taleo") &&
          (_find_job_cards d).length == 0 then
    .JOB_SEARCH_APP
  else if _is_single_job_page d then .JOB_DETAIL
  else if (_find_job_cards d).length > 0 then .JOB_LISTING
  else if (_find_category_links d).length > 0 then .CAREER_GATEWAY
  else .OTHER

/-- _detect_and_fill_filters: when location/keyword inputs are present,
synthesize a filtered URL by appending the heuristic query parameters
(urlencode modeled literally for countries without reserved chars; a
non-empty parsed query approximated by a question mark occurrence). -/
def _detect_and_fill_filters (d : Dom) (base_url country : String) : Option String :=
  if country = "" then none
  else if !(d.hasLocationInput || d.hasKeywordInput) then none
  else
    let query_params :=
      (if d.hasLocationInput then [("location", country), ("loc", country), ("country", country)] else []) ++
      (if d.hasKeywordInput then [("q", country), ("keywords", country)] else [])
    let new_query := String.intercalate "&" (query_params.map (fun p => p.1 ++ "=" ++ p.2))
    if strHasSub base_url "?" then some (base_url ++ "&" ++ new_query)
    else some (base_url ++ "?" ++ new_query)

/-! ## The crawl session: world oracle, session state, events -/

/-- Result of one crawler.arun light-tier fetch: the success flag of
the crawl4ai result and the parsed page. -/
structure FetchRes where
  success : Bool
  dom : Dom
deriving Repr

/-- External-effect oracle of one crawl: arun is the crawl4ai light
fetch, where an error models a raised exception (network, render or
engine crash); selHtml is the Selenium page_source parsed to a page,
where none models the empty string the source returns on any browser
failure (the Selenium function catches its own exceptions). -/
structure World where
  arun : String → Except Unit FetchRes
  selHtml : String → Option Dom

/-- The per-session mutable sets of the ExpertJobScraper instance. -/
structure SState where
  seen_urls : List String
  visited_gateways : List String
  visited_urls : List String
  visited_job_urls : List String
  used_selenium : List String
deriving Repr, DecidableEq

/-- Observable fetch/visit events of a run, in order: visitCall is the
invocation of _recursive_crawl, lightFetch a crawler.arun call,
heavyFetch an actual Selenium browser launch. -/
inductive Ev where
  | visitCall (url : String) (depth : Nat)
  | lightFetch (url : String)
  | heavyFetch (url : String)
deriving Repr, DecidableEq

/-- URLs of the heavy-tier launch events of a trace. -/
def heavyUrls (evs : List Ev) : List String :=
  evs.filterMap (fun e => match e with | .heavyFetch u => some u | _ => none)

/-- Depths passed to the visit calls of a trace. -/
def visitDepths (evs : List Ev) : List Nat :=
  evs.filterMap (fun e => match e with | .visitCall _ d => some d | _ => none)

/-- Light-tier fetch URLs of a trace. -/
def lightUrls (evs : List Ev) : List String :=
  evs.filterMap (fun e => match e with | .lightFetch u => some u | _ => none)

/-- _extract_with_selenium: blocklist guard, then the run-once-per-URL
escalation guard (both return the empty result), then mark the URL as
escalated and launch the browser. -/
def _extract_with_selenium (w : World) (url : String) (s : SState) :
    Option Dom × SState × List Ev :=
  if should_skip_url url then (none, s, [])
  else if s.used_selenium.contains url then (none, s, [])
  else
    ((w.selHtml url), { s with used_selenium := url :: s.used_selenium }, [Ev.heavyFetch url])

/-! ## Job extraction from a detail page -/

/-- _extract_single_job: per-session detail-URL dedup guard, apply-page
rejection, then the JSON-LD record when structured metadata is present,
else field-by-field DOM extraction guarded by title validity. -/
def _extract_single_job (url : String) (d : Dom) (s : SState) : Option Job × SState :=
  if s.visited_job_urls.contains url then (none, s)
  else
    let s1 := { s with visited_job_urls := url :: s.visited_job_urls }
    if _is_apply_page d then (none, s1)
    else
      match d.jsonLd with
      | some jd => (some (_create_job_from_json_ld jd url), s1)
      | none =>
        let c := d.container
        let title := _extract_job_title c
        if _is_invalid_title title then (none, s1)
        else
          let description := _extract_description c
          (some { job_title := title,
                  company := _extract_company c url,
                  location := c.locationText,
                  experience := _extract_employment_type c description,
                  job_description := description,
                  responsibilities := c.respText,
                  skills := _extract_skills description,
                  source_url := url,
                  job_id := none }, s1)

/-- _extract_single_job_from_url: one light fetch of the job URL inside
a try/except that turns any exception or failed result into none. -/
def _extract_single_job_from_url (w : World) (job_url : String) (s : SState) :
    Option Job × SState × List Ev :=
  match w.arun job_url with
  | .error _ => (none, s, [Ev.lightFetch job_url])
  | .ok res =>
    if res.success then
      let r := _extract_single_job job_url res.dom s
      (r.1, r.2, [Ev.lightFetch job_url])
    else (none, s, [Ev.lightFetch job_url])

/-- _extract_job_url_from_card: the resolved link of the card (when an
anchor is present) through apply-URL truncation. -/
def _extract_job_url_from_card (card : Card) (base_url : String) : Option String :=
  card.rawUrl.map _get_job_detail_url

/-! ## Listing extraction -/

/-- Card loop of _extract_from_job_listing: resolve each card to a
detail URL, skip locally-visited and apply URLs, fetch and extract,
keep validated records.  Returns (local visited set, jobs, state,
events). -/
def listingCardsGo (w : World) (base_url country : String) :
    List Card → List String → List Job → SState →
    (List String × List Job × SState × List Ev)
  | [], visited, jobs, s => (visited, jobs, s, [])
  | card :: rest, visited, jobs, s =>
    match _extract_job_url_from_card card base_url with
    | none => listingCardsGo w base_url country rest visited jobs s
    | some ju =>
      if visited.contains ju || _is_apply_url ju then
        listingCardsGo w base_url country rest visited jobs s
      else
        let r := _extract_single_job_from_url w ju s
        let jobs1 :=
          match r.1 with
          | some j => if _validate_job j country then jobs ++ [j] else jobs
          | none => jobs
        let rec1 := listingCardsGo w base_url country rest (ju :: visited) jobs1 r.2.1
        (rec1.1, rec1.2.1, rec1.2.2.1, r.2.2 ++ rec1.2.2.2)

/-- Secondary link loop of _extract_from_job_listing over the
_find_job_links candidates. -/
def listingLinksGo (w : World) (country : String) :
    List String → List String → List Job → SState →
    (List String × List Job × SState × List Ev)
  | [], visited, jobs, s => (visited, jobs, s, [])
  | link :: rest, visited, jobs, s =>
    if visited.contains link || _is_apply_url link then
      listingLinksGo w country rest visited jobs s
    else
      let r := _extract_single_job_from_url w link s
      let jobs1 :=
        match r.1 with
        | some j => if _validate_job j country then jobs ++ [j] else jobs
        | none => jobs
      let rec1 := listingLinksGo w country rest (link :: visited) jobs1 r.2.1
      (rec1.1, rec1.2.1, rec1.2.2.1, r.2.2 ++ rec1.2.2.2)

/-- _extract_from_job_listing: up to 15 cards, then, when fewer than 3
jobs resulted, up to 10 secondary link candidates. -/
def _extract_from_job_listing (w : World) (site_url : String) (d : Dom) (country : String)
    (s : SState) : List Job × SState × List Ev :=
  let cards := (_find_job_cards d).take 15
  let r1 := listingCardsGo w site_url country cards [] [] s
  if r1.2.1.length < 3 then
    let links := (_find_job_links d).take 10
    let r2 := listingLinksGo w country links r1.1 r1.2.1 r1.2.2.1
    (r2.2.1, r2.2.2.1, r1.2.2.2 ++ r2.2.2.2)
  else (r1.2.1, r1.2.2.1, r1.2.2.2)

/-! ## The recursive crawl controller -/

/-- Category fan-out loop shared by the gateway, listing-fallback and
other-fallback branches: visit every category URL that is not already
a visited gateway, threading state and concatenating results.  The
recursive visitor is passed as a function argument. -/
def crawlCats (visit : String → Nat → SState → (List Job × SState × List Ev)) :
    List (String × String) → Nat → SState → (List Job × SState × List Ev)
  | [], _, s => ([], s, [])
  | cat :: rest, depth, s =>
    if s.visited_gateways.contains cat.2 then crawlCats visit rest depth s
    else
      let r := visit cat.2 (depth + 1) s
      let r2 := crawlCats visit rest depth r.2.1
      (r.1 ++ r2.1, r2.2.1, r.2.2 ++ r2.2.2)

/-- Post-fetch dispatch of _recursive_crawl on the classified page
type, with the recursive visitor passed in; returns only the events it
emits itself (the enclosing call prepends its own). -/
def crawlDispatch (w : World) (visit : String → Nat → SState → (List Job × SState × List Ev))
    (url country : String) (depth : Nat) (d : Dom) (s : SState) :
    List Job × SState × List Ev :=
  match _classify_page_type d url with
  | .CAREER_INFO => ([], s, [])
  | .JOB_SEARCH_APP => _extract_from_job_listing w url d country s
  | .JOB_DETAIL =>
    let r := _extract_single_job url d s
    (match r.1 with
     | some j => if _validate_job j country then ([j], r.2, []) else ([], r.2, [])
     | none => ([], r.2, []))
  | .JOB_LISTING =>
    let r := _extract_from_job_listing w url d country s
    if r.1.length == 0 then
      let cats := _find_category_links d
      if cats.length > 0 then
        let r2 := crawlCats visit cats depth r.2.1
        (_deduplicate_jobs r2.1, r2.2.1, r.2.2 ++ r2.2.2)
      else (r.1, r.2.1, r.2.2)
    else (r.1, r.2.1, r.2.2)
  | .CAREER_GATEWAY =>
    let s1 := { s with visited_gateways := url :: s.visited_gateways }
    let cats := _find_category_links d
    let r2 := crawlCats visit cats depth s1
    let r3 := _extract_from_job_listing w url d country r2.2.1
    (_deduplicate_jobs (r2.1 ++ r3.1), r3.2.1, r2.2.2 ++ r3.2.2)
  | .OTHER =>
    let r := _extract_from_job_listing w url d country s
    if r.1.length == 0 then
      let cats := _find_category_links d
      if cats.length > 0 then
        let r2 := crawlCats visit cats depth r.2.1
        (_deduplicate_jobs r2.1, r2.2.1, r.2.2 ++ r2.2.2)
      else (r.1, r.2.1, r.2.2)
    else (r.1, r.2.1, r.2.2)

/-- _recursive_crawl, structurally recursive on a fuel bound (real runs
are bounded by the depth guard; the theorems quantify over the fuel).
Guard order follows the source: depth limit, visited-URL set (the URL
is recorded as visited before anything else happens), URL blocklist,
legacy depth check, seen/gateway loop safety — all before the fetch.
The local try/except around the fetch-and-dispatch body turns a raised
arun exception into an empty branch result. -/
def _recursive_crawl (w : World) :
    Nat → String → String → Nat → SState → (List Job × SState × List Ev)
  | 0, url, _, depth, s => ([], s, [Ev.visitCall url depth])
  | fuel + 1, url, country, depth, s =>
    let ev0 := [Ev.visitCall url depth]
    if depth > 2 then ([], s, ev0)
    else if s.visited_urls.contains url then ([], s, ev0)
    else
      let s1 := { s with visited_urls := url :: s.visited_urls }
      if should_skip_url url then ([], s1, ev0)
      else if depth > 3 then ([], s1, ev0)
      else if s1.seen_urls.contains url || s1.visited_gateways.contains url then ([], s1, ev0)
      else
        let s2 := { s1 with seen_urls := url :: s1.seen_urls }
        match w.arun url with
        | .error _ => ([], s2, ev0 ++ [Ev.lightFetch url])
        | .ok res =>
          let ev1 := ev0 ++ [Ev.lightFetch url]
          if !res.success then ([], s2, ev1)
          else
            let soup := res.dom
            let wc := wordCount soup.text
            let visit := fun u dp st => _recursive_crawl w fuel u country dp st
            if _is_spa_url url || wc < 100 ||
               strHasSub (lowerStr soup.text) "enable javascript" ||
               strHasSub (lowerStr soup.text) "please enable" then
              let rs := _extract_with_selenium w url s2
              match rs.1 with
              | some d2 =>
                let r := crawlDispatch w visit url country depth d2 rs.2.1
                (r.1, r.2.1, ev1 ++ rs.2.2 ++ r.2.2)
              | none =>
                if wc < 50 then ([], rs.2.1, ev1 ++ rs.2.2)
                else
                  let r := crawlDispatch w visit url country depth soup rs.2.1
                  (r.1, r.2.1, ev1 ++ rs.2.2 ++ r.2.2)
            else
              let r := crawlDispatch w visit url country depth soup s2
              (r.1, r.2.1, ev1 ++ r.2.2)

/-! ## Top-level extraction -/

/-- Python first-line heuristic of the emergency card loop:
text.strip().split on newline, first piece. -/
def firstLine (s : String) : String :=
  String.mk (charsBefore ['\n'] s.data)

/-- Card loop of the emergency Selenium-only fallback: heuristic title
(first heading-like descendant, else the first line of the card text),
and a resolvable job link is required. -/
def emergencyFromCards (clean_url : String) : List Card → List Job
  | [] => []
  | card :: rest =>
    let t0 := firstLine (pyStrip card.text)
    let title := match card.titleEl with | some te => pyStrip te | none => t0
    match _extract_job_url_from_card card clean_url with
    | none => emergencyFromCards clean_url rest
    | some ju =>
      { job_title := title,
        company := "Unknown - Extracted from Listing",
        location := "See Job Link",
        experience := "See Job Link",
        job_description := "Extracted via Selenium Fallback (Listing Only). Please visit link for details.",
        responsibilities := "",
        skills := [],
        source_url := ju,
        job_id := none } :: emergencyFromCards clean_url rest

/-- Minimal stub record of the emergency direct-link loop. -/
def linkStub (link : String) : Job :=
  { job_title := "Job Link Found",
    company := "Unknown",
    location := "Unknown",
    experience := "Unknown",
    job_description := "Link extracted via Selenium Fallback",
    responsibilities := "",
    skills := [],
    source_url := link,
    job_id := none }

/-- The emergency degraded path of the top-level except handler: one
direct Selenium fetch of the clean URL, best-effort card records, then
direct-link stubs when no card produced a record. -/
def emergencyExtract (w : World) (clean_url : String) (s : SState) :
    List Job × SState × List Ev :=
  let r := _extract_with_selenium w clean_url s
  match r.1 with
  | none => ([], r.2.1, r.2.2)
  | some d =>
    let cards := _find_job_cards d
    let fj := if cards.length > 0 then emergencyFromCards clean_url cards else []
    let fj2 := if fj.length == 0 then ((_find_job_links d).take 10).map linkStub else fj
    (fj2, r.2.1, r.2.2)

/-- Session reset at the start of extract_jobs_from_site: seen URLs,
visited URLs, visited job URLs and the escalation cache are cleared
(visited gateways are not). -/
def resetState (s : SState) : SState :=
  { s with seen_urls := [], visited_urls := [], visited_job_urls := [], used_selenium := [] }

/-- Filter detection, filtered crawl and rollback of
extract_jobs_from_site, after a scan page has been obtained. -/
def afterScan (w : World) (fuel : Nat) (clean_url country : String) (d : Dom) (s : SState) :
    List Job × SState × List Ev :=
  match _detect_and_fill_filters d clean_url country with
  | some search_url =>
    let r1 := _recursive_crawl w fuel search_url country 0 s
    if r1.1.length == 0 then
      let r2 := _recursive_crawl w fuel clean_url country 0 r1.2.1
      (r2.1, r2.2.1, r1.2.2 ++ r2.2.2)
    else (r1.1, r1.2.1, r1.2.2)
  | none => _recursive_crawl w fuel clean_url country 0 s

/-- extract_jobs_from_site: reset session guards, resolve the apply URL
to its detail parent, blocklist check, initial scan fetch with quality
retry and Selenium last resort, filter detection with rollback, and
the whole-pipeline except handler that degrades to emergencyExtract
when the scan fetch raises (the only operation of the body whose
exception is not already caught locally). -/
def extract_jobs_from_site (w : World) (fuel : Nat) (site_url country : String)
    (s0 : SState) : List Job × SState × List Ev :=
  let s1 := resetState s0
  let clean_url := _get_job_detail_url site_url
  if should_skip_url clean_url then ([], s1, [])
  else
    match w.arun clean_url with
    | .error _ =>
      let r := emergencyExtract w clean_url s1
      (r.1, r.2.1, Ev.lightFetch clean_url :: r.2.2)
    | .ok res =>
      let ev1 := [Ev.lightFetch clean_url]
      if res.success then
        let d := res.dom
        let txt := d.text
        let wc := wordCount txt
        if wc < 100 || txt.length < 500 ||
           strHasSub (lowerStr txt) "enable javascript" ||
           strHasSub (lowerStr txt) "please enable" then
          let rs := _extract_with_selenium w clean_url s1
          match rs.1 with
          | some d2 =>
            let r := afterScan w fuel clean_url country d2 rs.2.1
            (r.1, r.2.1, ev1 ++ rs.2.2 ++ r.2.2)
          | none =>
            let r := afterScan w fuel clean_url country d rs.2.1
            (r.1, r.2.1, ev1 ++ rs.2.2 ++ r.2.2)
        else
          let r := afterScan w fuel clean_url country d s1
          (r.1, r.2.1, ev1 ++ r.2.2)
      else
        let rs := _extract_with_selenium w clean_url s1
        match rs.1 with
        | none => ([], rs.2.1, ev1 ++ rs.2.2)
        | some d =>
          let r := afterScan w fuel clean_url country d rs.2.1
          (r.1, r.2.1, ev1 ++ rs.2.2 ++ r.2.2)

/-! ## Concrete records, pages and worlds used by witnesses -/

/-- A 300-char description with no marker phrases. -/
def longD : String := String.mk (List.replicate 300 'd')

/-- The Data Intern example record of the spec (with a non-empty
company, which the effective validator requires). -/
def dataInternJob : Job :=
  { job_title := "Data Intern", company := "Acme", location := "Remote",
    experience := "Full-time", job_description := longD, responsibilities := "",
    skills := ["Python"], source_url := "https://x.com/j/1", job_id := none }

/-- A record whose description contains application form (and is
longer than 200 chars, with every positive signal present). -/
def appFormJob : Job :=
  { dataInternJob with
    job_description := String.mk (List.replicate 250 'd') ++ " application form" }

/-- Two records sharing the stable identifier X but differing in the
composite key. -/
def jobIdA : Job :=
  { job_title := "T1", company := "C", location := "L", experience := "",
    job_description := "", responsibilities := "", skills := [],
    source_url := "", job_id := some "X" }

/-- Second record with the same identifier, different title. -/
def jobIdB : Job :=
  { jobIdA with job_title := "T2" }

/-- An n-fold work-word filler text (5n chars, n words, free of every
marker phrase of the scraper). -/
def mkWords (n : Nat) : String :=
  String.mk (List.flatten (List.replicate n ['w', 'o', 'r', 'k', ' ']))

/-- Empty container abstraction. -/
def emptyContainer : Container :=
  { text := "", titleCands := [], descFirst := none, descFallbackText := none,
    locationText := "", respText := "", companySel := none }

/-- A gateway page linking to one further category URL. -/
def gateDom (next : String) : Dom :=
  { text := mkWords 110, formsCount := 0, hasPearsonJobList := false,
    hasJobDetailIndicator := false, jobContentCount := 0, jobCards := [],
    catLinks := [("Next", next)], rawJobLinks := [], hasLocationInput := false,
    hasKeywordInput := false, jsonLd := none, container := emptyContainer }

/-- A world of chained gateway pages a -> b -> c -> d. -/
def wGate : World :=
  { arun := fun u =>
      if u = "https://x.com/a" then .ok ⟨true, gateDom "https://x.com/b"⟩
      else if u = "https://x.com/b" then .ok ⟨true, gateDom "https://x.com/c"⟩
      else if u = "https://x.com/c" then .ok ⟨true, gateDom "https://x.com/d"⟩
      else .ok ⟨false, gateDom ""⟩,
    selHtml := fun _ => none }

/-- The all-empty initial session state. -/
def st0 : SState := ⟨[], [], [], [], []⟩

/-- Description of the detail-page JobPosting fixture. -/
def detailDesc : String :=
  "An internship for students learning data tooling and cloud platforms over the summer period."

/-- A job-detail page carrying JobPosting JSON-LD metadata. -/
def detailDom : Dom :=
  { text := mkWords 110, formsCount := 0, hasPearsonJobList := false,
    hasJobDetailIndicator := true, jobContentCount := 0, jobCards := [],
    catLinks := [], rawJobLinks := [], hasLocationInput := false,
    hasKeywordInput := false,
    jsonLd := some [("title", JVal.s "Data Intern"),
                    ("hiringOrganization", JVal.d [("name", JVal.s "Acme Labs")]),
                    ("description", JVal.s detailDesc),
                    ("jobLocation", JVal.d [("address", JVal.d [("addressLocality", JVal.s "Remote")])])],
    container := emptyContainer }

/-- A world serving the detail page at the truncation target of the
blocked apply URL. -/
def wDetail : World :=
  { arun := fun u =>
      if u = "https://x.com" then .ok ⟨true, detailDom⟩
      else .ok ⟨false, gateDom ""⟩,
    selHtml := fun _ => none }

/-- The record the detail fixture yields. -/
def detailJob : Job :=
  { job_title := "Data Intern", company := "Acme Labs", location := "Remote",
    experience := "Full-time", job_description := detailDesc,
    responsibilities := "", skills := [], source_url := "https://x.com",
    job_id := none }

/-- A marketing page: career-info marker text, zero job cards, one
category link present. -/
def infoDom : Dom :=
  { text := mkWords 110 ++ "life at acme", formsCount := 0,
    hasPearsonJobList := false, hasJobDetailIndicator := true,
    jobContentCount := 5, jobCards := [],
    catLinks := [("Jobs Here", "https://y.com/z")], rawJobLinks := [],
    hasLocationInput := false, hasKeywordInput := false, jsonLd := none,
    container := emptyContainer }

/-- A world whose page at e is the marketing fixture. -/
def wInfo : World :=
  { arun := fun u =>
      if u = "https://x.com/e" then .ok ⟨true, infoDom⟩
      else .ok ⟨false, gateDom ""⟩,
    selHtml := fun _ => none }

/-- A world whose every fetch raises. -/
def wErr : World :=
  { arun := fun _ => .error (), selHtml := fun _ => none }

/-- JobPosting metadata carrying only its type tag. -/
def domJsonMin : Dom :=
  { text := "", formsCount := 0, hasPearsonJobList := false,
    hasJobDetailIndicator := true, jobContentCount := 0, jobCards := [],
    catLinks := [], rawJobLinks := [], hasLocationInput := false,
    hasKeywordInput := false, jsonLd := some [("@type", JVal.s "JobPosting")],
    container := emptyContainer }

/-- A heuristic-path detail page (no JSON-LD) with a clean title. -/
def domHeur : Dom :=
  { text := "", formsCount := 0, hasPearsonJobList := false,
    hasJobDetailIndicator := true, jobContentCount := 0, jobCards := [],
    catLinks := [], rawJobLinks := [], hasLocationInput := false,
    hasKeywordInput := false, jsonLd := none,
    container := { text := "", titleCands := ["Software Intern Role"],
                   descFirst := none, descFallbackText := none,
                   locationText := "Remote", respText := "",
                   companySel := some "Acme" } }

/-- A state with the gateway-chain root already marked visited. -/
def stVisited : SState :=
  { st0 with visited_urls := ["https://x.com/a"] }

/-- Escalation invariant of a state transition emitting a trace: every
heavy-tier launch is of a URL not yet in the escalation set, the set
only grows and absorbs the launched URLs, and no URL is launched twice
within the trace. -/
def HeavyStep (s : SState) (evs : List Ev) (s2 : SState) : Prop :=
  (∀ u, u ∈ heavyUrls evs → u ∉ s.used_selenium) ∧
  (∀ u, u ∈ s.used_selenium → u ∈ s2.used_selenium) ∧
  (∀ u, u ∈ heavyUrls evs → u ∈ s2.used_selenium) ∧
  (heavyUrls evs).Nodup

/-! ## Helper lemmas: traces -/

@[simp] lemma heavyUrls_nil : heavyUrls [] = [] := rfl

@[simp] lemma heavyUrls_append (a b : List Ev) : heavyUrls (a ++ b) = heavyUrls a ++ heavyUrls b :=
  List.filterMap_append a b _

@[simp] lemma heavyUrls_visit (u : String) (n : Nat) (t : List Ev) :
    heavyUrls (Ev.visitCall u n :: t) = heavyUrls t := rfl

@[simp] lemma heavyUrls_light (u : String) (t : List Ev) :
    heavyUrls (Ev.lightFetch u :: t) = heavyUrls t := rfl

@[simp] lemma heavyUrls_heavy (u : String) (t : List Ev) :
    heavyUrls (Ev.heavyFetch u :: t) = u :: heavyUrls t := rfl

@[simp] lemma visitDepths_nil : visitDepths [] = [] := rfl

@[simp] lemma visitDepths_append (a b : List Ev) :
    visitDepths (a ++ b) = visitDepths a ++ visitDepths b :=
  List.filterMap_append a b _

@[simp] lemma visitDepths_visit (u : String) (n : Nat) (t : List Ev) :
    visitDepths (Ev.visitCall u n :: t) = n :: visitDepths t := rfl

@[simp] lemma visitDepths_light (u : String) (t : List Ev) :
    visitDepths (Ev.lightFetch u :: t) = visitDepths t := rfl

@[simp] lemma visitDepths_heavy (u : String) (t : List Ev) :
    visitDepths (Ev.heavyFetch u :: t) = visitDepths t := rfl

lemma heavyStep_of_no_heavy {s s2 : SState} {evs : List Ev}
    (h1 : heavyUrls evs = [])
    (h2 : ∀ u, u ∈ s.used_selenium → u ∈ s2.used_selenium) :
    HeavyStep s evs s2 := by
  refine ⟨?_, h2, ?_, ?_⟩ <;> simp [h1]

lemma heavyStep_refl (s : SState) : HeavyStep s [] s :=
  heavyStep_of_no_heavy rfl (fun _ h => h)

lemma heavyStep_comp {s1 s2 s3 : SState} {e1 e2 : List Ev}
    (h1 : HeavyStep s1 e1 s2) (h2 : HeavyStep s2 e2 s3) :
    HeavyStep s1 (e1 ++ e2) s3 := by
  obtain ⟨a1, b1, c1, d1⟩ := h1
  obtain ⟨a2, b2, c2, d2⟩ := h2
  refine ⟨?_, fun u hu => b2 u (b1 u hu), ?_, ?_⟩
  · intro u hu
    rw [heavyUrls_append, List.mem_append] at hu
    rcases hu with hu | hu
    · exact a1 u hu
    · intro hin
      exact a2 u hu (b1 u hin)
  · intro u hu
    rw [heavyUrls_append, List.mem_append] at hu
    rcases hu with hu | hu
    · exact b2 u (c1 u hu)
    · exact c2 u hu
  · rw [heavyUrls_append, List.nodup_append]
    refine ⟨d1, d2, ?_⟩
    intro u hu1 hu2
    exact a2 u hu2 (c1 u hu1)

lemma used_single (url : String) (d : Dom) (s : SState) :
    ((_extract_single_job url d s).2).used_selenium = s.used_selenium := by
  simp only [_extract_single_job]
  split
  · rfl
  · split
    · rfl
    · split
      · rfl
      · split
        · rfl
        · rfl

lemma hs_selenium (w : World) (u : String) (s : SState) :
    HeavyStep s ((_extract_with_selenium w u s).2.2) ((_extract_with_selenium w u s).2.1) := by
  simp only [_extract_with_selenium]
  split
  · exact heavyStep_refl s
  · split
    · exact heavyStep_refl s
    · rename_i h1 h2
      refine ⟨?_, ?_, ?_, ?_⟩
      · intro v hv
        simp only [heavyUrls_heavy, heavyUrls_nil, List.mem_singleton] at hv
        subst hv
        intro hin
        exact h2 (List.elem_iff.mpr hin)
      · intro v hv
        exact List.mem_cons_of_mem u hv
      · intro v hv
        simp only [heavyUrls_heavy, heavyUrls_nil, List.mem_singleton] at hv
        subst hv
        exact List.mem_cons_self _ _
      · simp

lemma hs_single_from_url (w : World) (u : String) (s : SState) :
    HeavyStep s ((_extract_single_job_from_url w u s).2.2) ((_extract_single_job_from_url w u s).2.1) := by
  simp only [_extract_single_job_from_url]
  split
  · exact heavyStep_of_no_heavy rfl (fun _ h => h)
  · split
    · refine heavyStep_of_no_heavy rfl ?_
      intro v hv
      rw [used_single]
      exact hv
    · exact heavyStep_of_no_heavy rfl (fun _ h => h)

lemma hs_cardsGo (w : World) (b c : String) :
    ∀ (cards : List Card) (visited : List String) (jobs : List Job) (s : SState),
      HeavyStep s ((listingCardsGo w b c cards visited jobs s).2.2.2)
        ((listingCardsGo w b c cards visited jobs s).2.2.1) := by
  intro cards
  induction cards with
  | nil => intro visited jobs s; exact heavyStep_refl s
  | cons card rest ih =>
    intro visited jobs s
    simp only [listingCardsGo]
    split
    · exact ih visited jobs s
    · split
      · exact ih visited jobs s
      · exact heavyStep_comp (hs_single_from_url w _ s) (ih _ _ _)

lemma hs_linksGo (w : World) (c : String) :
    ∀ (links visited : List String) (jobs : List Job) (s : SState),
      HeavyStep s ((listingLinksGo w c links visited jobs s).2.2.2)
        ((listingLinksGo w c links visited jobs s).2.2.1) := by
  intro links
  induction links with
  | nil => intro visited jobs s; exact heavyStep_refl s
  | cons link rest ih =>
    intro visited jobs s
    simp only [listingLinksGo]
    split
    · exact ih visited jobs s
    · exact heavyStep_comp (hs_single_from_url w link s) (ih _ _ _)

lemma hs_listing (w : World) (u : String) (d : Dom) (c : String) (s : SState) :
    HeavyStep s ((_extract_from_job_listing w u d c s).2.2)
      ((_extract_from_job_listing w u d c s).2.1) := by
  simp only [_extract_from_job_listing]
  split
  · exact heavyStep_comp (hs_cardsGo w u c _ _ _ _) (hs_linksGo w c _ _ _ _)
  · exact hs_cardsGo w u c _ _ _ _

lemma hs_cats (visit : String → Nat → SState → (List Job × SState × List Ev))
    (hv : ∀ u dp st, HeavyStep st ((visit u dp st).2.2) ((visit u dp st).2.1)) :
    ∀ (cats : List (String × String)) (dp : Nat) (s : SState),
      HeavyStep s ((crawlCats visit cats dp s).2.2) ((crawlCats visit cats dp s).2.1) := by
  intro cats
  induction cats with
  | nil => intro dp s; exact heavyStep_refl s
  | cons cat rest ih =>
    intro dp s
    simp only [crawlCats]
    split
    · exact ih dp s
    · exact heavyStep_comp (hv cat.2 (dp + 1) s) (ih dp _)

lemma hs_dispatch (w : World) (visit : String → Nat → SState → (List Job × SState × List Ev))
    (u c : String) (dp : Nat) (d : Dom) (s : SState)
    (hv : ∀ u' dp' st, HeavyStep st ((visit u' dp' st).2.2) ((visit u' dp' st).2.1)) :
    HeavyStep s ((crawlDispatch w visit u c dp d s).2.2) ((crawlDispatch w visit u c dp d s).2.1) := by
  simp only [crawlDispatch]
  split
  · exact heavyStep_refl s
  · exact hs_listing w u d c s
  · split
    · split
      · exact heavyStep_of_no_heavy rfl (fun v h => by rw [used_single]; exact h)
      · exact heavyStep_of_no_heavy rfl (fun v h => by rw [used_single]; exact h)
    · exact heavyStep_of_no_heavy rfl (fun v h => by rw [used_single]; exact h)
  · split
    · split
      · exact heavyStep_comp (hs_listing w u d c s) (hs_cats visit hv _ dp _)
      · exact hs_listing w u d c s
    · exact hs_listing w u d c s
  · exact heavyStep_comp (hs_cats visit hv _ dp _) (hs_listing w u d c _)
  · split
    · split
      · exact heavyStep_comp (hs_listing w u d c s) (hs_cats visit hv _ dp _)
      · exact hs_listing w u d c s
    · exact hs_listing w u d c s

lemma hs_crawl (w : World) (c : String) :
    ∀ (fuel : Nat) (u : String) (dp : Nat) (s : SState),
      HeavyStep s ((_recursive_crawl w fuel u c dp s).2.2) ((_recursive_crawl w fuel u c dp s).2.1) := by
  intro fuel
  induction fuel with
  | zero => intro u dp s; exact heavyStep_of_no_heavy rfl (fun _ h => h)
  | succ n ih =>
    intro u dp s
    simp only [_recursive_crawl]
    split
    · exact heavyStep_of_no_heavy rfl (fun _ h => h)
    · split
      · exact heavyStep_of_no_heavy rfl (fun _ h => h)
      · split
        · exact heavyStep_of_no_heavy rfl (fun _ h => h)
        · split
          · exact heavyStep_of_no_heavy rfl (fun _ h => h)
          · split
            · exact heavyStep_of_no_heavy rfl (fun _ h => h)
            · split
              · exact heavyStep_of_no_heavy rfl (fun _ h => h)
              · split
                · exact heavyStep_of_no_heavy rfl (fun _ h => h)
                · split
                  · split
                    · exact heavyStep_comp
                        (heavyStep_comp (heavyStep_of_no_heavy rfl (fun _ h => h)) (hs_selenium w u _))
                        (hs_dispatch w _ u c dp _ _ ih)
                    · split
                      · exact heavyStep_comp (heavyStep_of_no_heavy rfl (fun _ h => h)) (hs_selenium w u _)
                      · exact heavyStep_comp
                          (heavyStep_comp (heavyStep_of_no_heavy rfl (fun _ h => h)) (hs_selenium w u _))
                          (hs_dispatch w _ u c dp _ _ ih)
                  · exact heavyStep_comp (heavyStep_of_no_heavy rfl (fun _ h => h))
                      (hs_dispatch w _ u c dp _ _ ih)

lemma hs_afterScan (w : World) (fuel : Nat) (clean c : String) (d : Dom) (s : SState) :
    HeavyStep s ((afterScan w fuel clean c d s).2.2) ((afterScan w fuel clean c d s).2.1) := by
  simp only [afterScan]
  split
  · split
    · exact heavyStep_comp (hs_crawl w c fuel _ 0 s) (hs_crawl w c fuel _ 0 _)
    · exact hs_crawl w c fuel _ 0 s
  · exact hs_crawl w c fuel _ 0 s

lemma hs_emergency (w : World) (clean : String) (s : SState) :
    HeavyStep s ((emergencyExtract w clean s).2.2) ((emergencyExtract w clean s).2.1) := by
  simp only [emergencyExtract]
  split
  · exact hs_selenium w clean s
  · exact hs_selenium w clean s

lemma hs_extract (w : World) (fuel : Nat) (site c : String) (s0 : SState) :
    HeavyStep (resetState s0) ((extract_jobs_from_site w fuel site c s0).2.2)
      ((extract_jobs_from_site w fuel site c s0).2.1) := by
  simp only [extract_jobs_from_site]
  split
  · exact heavyStep_refl _
  · split
    · exact hs_emergency w _ _
    · split
      · split
        · split
          · exact heavyStep_comp
              (heavyStep_comp (heavyStep_of_no_heavy rfl (fun _ h => h)) (hs_selenium w _ _))
              (hs_afterScan w fuel _ c _ _)
          · exact heavyStep_comp
              (heavyStep_comp (heavyStep_of_no_heavy rfl (fun _ h => h)) (hs_selenium w _ _))
              (hs_afterScan w fuel _ c _ _)
        · exact heavyStep_comp (heavyStep_of_no_heavy rfl (fun _ h => h))
            (hs_afterScan w fuel _ c _ _)
      · split
        · exact heavyStep_comp (heavyStep_of_no_heavy rfl (fun _ h => h)) (hs_selenium w _ _)
        · exact heavyStep_comp
            (heavyStep_comp (heavyStep_of_no_heavy rfl (fun _ h => h)) (hs_selenium w _ _))
            (hs_afterScan w fuel _ c _ _)

/-! ## Helper lemmas: visit depths -/

lemma vd_selenium (w : World) (u : String) (s : SState) :
    visitDepths ((_extract_with_selenium w u s).2.2) = [] := by
  simp only [_extract_with_selenium]
  split
  · rfl
  · split
    · rfl
    · rfl

lemma vd_single_from_url (w : World) (u : String) (s : SState) :
    visitDepths ((_extract_single_job_from_url w u s).2.2) = [] := by
  simp only [_extract_single_job_from_url]
  split
  · rfl
  · split
    · rfl
    · rfl

lemma vd_cardsGo (w : World) (b c : String) :
    ∀ (cards : List Card) (visited : List String) (jobs : List Job) (s : SState),
      visitDepths ((listingCardsGo w b c cards visited jobs s).2.2.2) = [] := by
  intro cards
  induction cards with
  | nil => intro visited jobs s; rfl
  | cons card rest ih =>
    intro visited jobs s
    simp only [listingCardsGo]
    split
    · exact ih visited jobs s
    · split
      · exact ih visited jobs s
      · rw [visitDepths_append, vd_single_from_url, ih]
        rfl

lemma vd_linksGo (w : World) (c : String) :
    ∀ (links visited : List String) (jobs : List Job) (s : SState),
      visitDepths ((listingLinksGo w c links visited jobs s).2.2.2) = [] := by
  intro links
  induction links with
  | nil => intro visited jobs s; rfl
  | cons link rest ih =>
    intro visited jobs s
    simp only [listingLinksGo]
    split
    · exact ih visited jobs s
    · rw [visitDepths_append, vd_single_from_url, ih]
      rfl

lemma vd_listing (w : World) (u : String) (d : Dom) (c : String) (s : SState) :
    visitDepths ((_extract_from_job_listing w u d c s).2.2) = [] := by
  simp only [_extract_from_job_listing]
  split
  · rw [visitDepths_append, vd_cardsGo, vd_linksGo]
    rfl
  · exact vd_cardsGo w u c _ _ _ _

lemma vd_cats (visit : String → Nat → SState → (List Job × SState × List Ev)) (dp : Nat)
    (hv : ∀ u st, ∀ x ∈ visitDepths ((visit u (dp + 1) st).2.2), x ≤ 3) :
    ∀ (cats : List (String × String)) (s : SState),
      ∀ x ∈ visitDepths ((crawlCats visit cats dp s).2.2), x ≤ 3 := by
  intro cats
  induction cats with
  | nil => intro s x hx; simp [crawlCats] at hx
  | cons cat rest ih =>
    intro s x hx
    simp only [crawlCats] at hx
    split at hx
    · exact ih s x hx
    · rw [visitDepths_append, List.mem_append] at hx
      rcases hx with hx | hx
      · exact hv cat.2 s x hx
      · exact ih _ x hx

lemma vd_dispatch (w : World) (visit : String → Nat → SState → (List Job × SState × List Ev))
    (u c : String) (dp : Nat) (d : Dom) (s : SState)
    (hv : ∀ u' st, ∀ x ∈ visitDepths ((visit u' (dp + 1) st).2.2), x ≤ 3) :
    ∀ x ∈ visitDepths ((crawlDispatch w visit u c dp d s).2.2), x ≤ 3 := by
  intro x hx
  simp only [crawlDispatch] at hx
  split at hx
  · simp at hx
  · rw [vd_listing] at hx
    simp at hx
  · split at hx
    · split at hx
      · simp at hx
      · simp at hx
    · simp at hx
  · split at hx
    · split at hx
      · rw [visitDepths_append, vd_listing, List.nil_append] at hx
        exact vd_cats visit dp hv _ _ x hx
      · rw [vd_listing] at hx
        simp at hx
    · rw [vd_listing] at hx
      simp at hx
  · rw [visitDepths_append, vd_listing, List.append_nil] at hx
    exact vd_cats visit dp hv _ _ x hx
  · split at hx
    · split at hx
      · rw [visitDepths_append, vd_listing, List.nil_append] at hx
        exact vd_cats visit dp hv _ _ x hx
      · rw [vd_listing] at hx
        simp at hx
    · rw [vd_listing] at hx
      simp at hx

lemma crawl_depth_bound (w : World) (c : String) :
    ∀ (fuel : Nat) (u : String) (dp : Nat) (s : SState), dp ≤ 3 →
      ∀ x ∈ visitDepths ((_recursive_crawl w fuel u c dp s).2.2), x ≤ 3 := by
  intro fuel
  induction fuel with
  | zero =>
    intro u dp s hdp x hx
    simp only [_recursive_crawl, visitDepths_visit, visitDepths_nil, List.mem_singleton] at hx
    omega
  | succ n ih =>
    intro u dp s hdp x hx
    simp only [_recursive_crawl] at hx
    split at hx
    · simp only [visitDepths_visit, visitDepths_nil, List.mem_singleton] at hx; omega
    · split at hx
      · simp only [visitDepths_visit, visitDepths_nil, List.mem_singleton] at hx; omega
      · split at hx
        · simp only [visitDepths_visit, visitDepths_nil, List.mem_singleton] at hx; omega
        · split at hx
          · simp only [visitDepths_visit, visitDepths_nil, List.mem_singleton] at hx; omega
          · split at hx
            · simp only [visitDepths_visit, visitDepths_nil, List.mem_singleton] at hx; omega
            · have hdp3 : dp + 1 ≤ 3 := by omega
              have hv : ∀ u' st, ∀ y ∈ visitDepths ((_recursive_crawl w n u' c (dp + 1) st).2.2), y ≤ 3 :=
                fun u' st => ih u' (dp + 1) st hdp3
              split at hx
              · simp only [visitDepths_append, visitDepths_visit, visitDepths_light,
                  visitDepths_nil, List.mem_append, List.mem_singleton] at hx
                rcases hx with hx | hx
                · omega
                · simp at hx
              · split at hx
                · simp only [visitDepths_append, visitDepths_visit, visitDepths_light,
                    visitDepths_nil, List.mem_append, List.mem_singleton] at hx
                  rcases hx with hx | hx
                  · omega
                  · simp at hx
                · split at hx
                  · split at hx
                    · rw [visitDepths_append, visitDepths_append, vd_selenium, List.append_nil] at hx
                      rw [List.mem_append] at hx
                      rcases hx with hx | hx
                      · simp at hx
                        omega
                      · exact vd_dispatch w _ u c dp _ _ hv x hx
                    · split at hx
                      · rw [visitDepths_append, vd_selenium, List.append_nil] at hx
                        simp at hx
                        omega
                      · rw [visitDepths_append, visitDepths_append, vd_selenium, List.append_nil] at hx
                        rw [List.mem_append] at hx
                        rcases hx with hx | hx
                        · simp at hx
                          omega
                        · exact vd_dispatch w _ u c dp _ _ hv x hx
                  · rw [visitDepths_append, List.mem_append] at hx
                    rcases hx with hx | hx
                    · simp at hx
                      omega
                    · exact vd_dispatch w _ u c dp _ _ hv x hx

lemma vd_emergency (w : World) (clean : String) (s : SState) :
    visitDepths ((emergencyExtract w clean s).2.2) = [] := by
  simp only [emergencyExtract]
  split
  · exact vd_selenium w clean s
  · exact vd_selenium w clean s

lemma afterScan_depth_bound (w : World) (fuel : Nat) (clean c : String) (d : Dom) (s : SState) :
    ∀ x ∈ visitDepths ((afterScan w fuel clean c d s).2.2), x ≤ 3 := by
  intro x hx
  simp only [afterScan] at hx
  split at hx
  · split at hx
    · rw [visitDepths_append, List.mem_append] at hx
      rcases hx with hx | hx
      · exact crawl_depth_bound w c fuel _ 0 s (by omega) x hx
      · exact crawl_depth_bound w c fuel _ 0 _ (by omega) x hx
    · exact crawl_depth_bound w c fuel _ 0 s (by omega) x hx
  · exact crawl_depth_bound w c fuel _ 0 s (by omega) x hx

lemma extract_depth_bound (w : World) (fuel : Nat) (site c : String) (s0 : SState) :
    ∀ x ∈ visitDepths ((extract_jobs_from_site w fuel site c s0).2.2), x ≤ 3 := by
  intro x hx
  simp only [extract_jobs_from_site] at hx
  split at hx
  · simp at hx
  · split at hx
    · rw [show ∀ t, visitDepths (Ev.lightFetch (_get_job_detail_url site) :: t) = visitDepths t
        from fun t => rfl, vd_emergency] at hx
      simp at hx
    · split at hx
      · split at hx
        · split at hx
          · rw [visitDepths_append, visitDepths_append, vd_selenium, List.append_nil] at hx
            rw [List.mem_append] at hx
            rcases hx with hx | hx
            · simp [visitDepths] at hx
            · exact afterScan_depth_bound w fuel _ c _ _ x hx
          · rw [visitDepths_append, visitDepths_append, vd_selenium, List.append_nil] at hx
            rw [List.mem_append] at hx
            rcases hx with hx | hx
            · simp [visitDepths] at hx
            · exact afterScan_depth_bound w fuel _ c _ _ x hx
        · rw [visitDepths_append, List.mem_append] at hx
          rcases hx with hx | hx
          · simp [visitDepths] at hx
          · exact afterScan_depth_bound w fuel _ c _ _ x hx
      · split at hx
        · rw [visitDepths_append, vd_selenium] at hx
          simp [visitDepths] at hx
        · rw [visitDepths_append, visitDepths_append, vd_selenium, List.append_nil] at hx
          rw [List.mem_append] at hx
          rcases hx with hx | hx
          · simp [visitDepths] at hx
          · exact afterScan_depth_bound w fuel _ c _ _ x hx

/-! ## Helper lemmas: substrings survive stripping -/

lemma charsStartWith_iff (n : List Char) :
    ∀ l, charsStartWith n l = true ↔ ∃ t, l = n ++ t := by
  induction n with
  | nil => intro l; simp [charsStartWith]
  | cons a as ih =>
    intro l
    cases l with
    | nil =>
      simp [charsStartWith]
    | cons b bs =>
      simp only [charsStartWith, Bool.and_eq_true, beq_iff_eq, ih, List.cons_append,
        List.cons.injEq]
      constructor
      · rintro ⟨rfl, t, rfl⟩
        exact ⟨t, rfl, rfl⟩
      · rintro ⟨t, rfl, rfl⟩
        exact ⟨rfl, t, rfl⟩

lemma charsHasSub_iff (n : List Char) :
    ∀ l, charsHasSub n l = true ↔ ∃ p t, l = p ++ n ++ t := by
  intro l
  induction l with
  | nil =>
    simp only [charsHasSub, charsStartWith_iff]
    constructor
    · rintro ⟨t, ht⟩
      exact ⟨[], t, by simpa using ht⟩
    · rintro ⟨p, t, h⟩
      have h2 := h.symm
      rw [List.append_eq_nil, List.append_eq_nil] at h2
      exact ⟨[], by simp [h2.1.2]⟩
  | cons c cs ih =>
    simp only [charsHasSub, Bool.or_eq_true, charsStartWith_iff, ih]
    constructor
    · rintro (⟨t, ht⟩ | ⟨p, t, ht⟩)
      · exact ⟨[], t, by simpa using ht⟩
      · exact ⟨c :: p, t, by simp [ht]⟩
    · rintro ⟨p, t, ht⟩
      cases p with
      | nil =>
        exact Or.inl ⟨t, by simpa using ht⟩
      | cons a p2 =>
        simp only [List.cons_append, List.append_assoc, List.cons.injEq] at ht
        exact Or.inr ⟨p2, t, by simp [ht.2, List.append_assoc]⟩

lemma charsHasSub_rev (n l : List Char) (h : charsHasSub n l = true) :
    charsHasSub n.reverse l.reverse = true := by
  rw [charsHasSub_iff] at h ⊢
  obtain ⟨p, t, rfl⟩ := h
  exact ⟨t.reverse, p.reverse, by simp⟩

lemma ws_toLower_fixed (c : Char) (h : c.isWhitespace = true) : Char.toLower c = c := by
  simp only [Char.isWhitespace, Bool.or_eq_true, decide_eq_true_eq] at h
  rcases h with ((h | h) | h) | h <;> subst h <;> decide

lemma hasSub_map_toLower_dropWhile (n : List Char) (hn : n ≠ [])
    (hnw : n.all (fun c => !c.isWhitespace) = true) :
    ∀ l : List Char, charsHasSub n (l.map Char.toLower) = true →
      charsHasSub n ((l.dropWhile Char.isWhitespace).map Char.toLower) = true := by
  intro l
  induction l with
  | nil => intro h; simpa using h
  | cons c cs ih =>
    intro h
    by_cases hc : c.isWhitespace = true
    · rw [List.dropWhile_cons, if_pos hc]
      apply ih
      cases n with
      | nil => exact absurd rfl hn
      | cons n0 n2 =>
        simp only [List.map_cons, charsHasSub, Bool.or_eq_true] at h
        rcases h with h | h
        · exfalso
          simp only [charsStartWith, Bool.and_eq_true, beq_iff_eq] at h
          have hcl : Char.toLower c = c := ws_toLower_fixed c hc
          have hn0 : n0.isWhitespace = true := by rw [h.1, hcl]; exact hc
          have hnot := List.all_eq_true.mp hnw n0 (List.mem_cons_self _ _)
          rw [hn0] at hnot
          simp at hnot
        · exact h
    · rw [List.dropWhile_cons, if_neg hc]
      exact h

lemma strHasSub_lower_strip (needle url : String) (hn : needle.data ≠ [])
    (hnw : needle.data.all (fun c => !c.isWhitespace) = true)
    (h : strHasSub (lowerStr url) needle = true) :
    strHasSub (lowerStr (pyStrip url)) needle = true := by
  have h0 : charsHasSub needle.data (url.data.map Char.toLower) = true := h
  have h1 := hasSub_map_toLower_dropWhile needle.data hn hnw url.data h0
  have h2 := charsHasSub_rev _ _ h1
  rw [← List.map_reverse] at h2
  have hnrev : needle.data.reverse ≠ [] := by simpa using hn
  have hnwrev : needle.data.reverse.all (fun c => !c.isWhitespace) = true := by
    rw [List.all_eq_true] at hnw ⊢
    intro x hx
    exact hnw x (List.mem_reverse.mp hx)
  have h3 := hasSub_map_toLower_dropWhile needle.data.reverse hnrev hnwrev _ h2
  have h4 := charsHasSub_rev _ _ h3
  rw [List.reverse_reverse, ← List.map_reverse] at h4
  exact h4

lemma sanitize_some {url u : String} (h : sanitize_url url = some u) : u = pyStrip url := by
  simp only [sanitize_url] at h
  split at h
  · exact absurd h (by simp)
  · split at h
    · exact absurd h (by simp)
    · split at h
      · exact absurd h (by simp)
      · exact (Option.some.inj h).symm

/-! ## Helper lemmas: deduplication -/

lemma dedupAux_idem (l : List Job) :
    ∀ seen, dedupAux seen (dedupAux seen l) = dedupAux seen l := by
  induction l with
  | nil => intro seen; rfl
  | cons j rest ih =>
    intro seen
    simp only [dedupAux]
    by_cases h : seen.contains (dedupKey seen j)
    · simp only [h, if_true]
      exact ih seen
    · simp only [h, if_false, Bool.false_eq_true]
      simp only [dedupAux, h, if_false, Bool.false_eq_true]
      rw [ih (dedupKey seen j :: seen)]

lemma dedupAux_sublist (l : List Job) :
    ∀ seen, (dedupAux seen l).Sublist l := by
  induction l with
  | nil => intro seen; simp [dedupAux]
  | cons j rest ih =>
    intro seen
    simp only [dedupAux]
    by_cases h : seen.contains (dedupKey seen j)
    · simp only [h, if_true]
      exact (ih seen).cons j
    · simp only [h, if_false, Bool.false_eq_true]
      exact (ih (dedupKey seen j :: seen)).cons₂ j

lemma dedupAux_none_key (l : List Job) :
    ∀ seen b, b ∈ dedupAux seen l → b.job_id = none →
      seen.contains (compositeKey b) = false := by
  induction l with
  | nil => intro seen b hb; simp [dedupAux] at hb
  | cons j rest ih =>
    intro seen b hb hid
    simp only [dedupAux] at hb
    by_cases h : seen.contains (dedupKey seen j)
    · simp only [h, if_true] at hb
      exact ih seen b hb hid
    · simp only [h, if_false, Bool.false_eq_true, List.mem_cons] at hb
      rcases hb with hb | hb
      · subst hb
        have hk : dedupKey seen b = compositeKey b := by
          simp [dedupKey, hid]
        rw [hk] at h
        simpa using h
      · have h2 := ih (dedupKey seen j :: seen) b hb hid
        simp only [List.contains_cons, Bool.or_eq_false_iff] at h2
        exact h2.2

lemma dedupAux_pairwise (l : List Job) :
    ∀ seen, (dedupAux seen l).Pairwise
      (fun a b => a.job_id = none → b.job_id = none → compositeKey a ≠ compositeKey b) := by
  induction l with
  | nil => intro seen; simp [dedupAux]
  | cons j rest ih =>
    intro seen
    simp only [dedupAux]
    by_cases h : seen.contains (dedupKey seen j)
    · simp only [h, if_true]
      exact ih seen
    · simp only [h, if_false, Bool.false_eq_true]
      refine List.Pairwise.cons ?_ (ih (dedupKey seen j :: seen))
      intro b hb hidj hidb heq
      have h2 := dedupAux_none_key rest (dedupKey seen j :: seen) b hb hidb
      have hk : dedupKey seen j = compositeKey j := by
        simp [dedupKey, hidj]
      rw [hk, ← heq] at h2
      simp at h2

/-! ## Helper lemmas: classifier -/

lemma classify_career_info (d : Dom) (url : String)
    (hinfo : (infoKeywords.any (fun k => strHasSub (lowerStr d.text) k)) = true)
    (hcards : d.jobCards = []) :
    _classify_page_type d url = PageType.CAREER_INFO := by
  simp [_classify_page_type, _find_job_cards, hcards, hinfo]

/-! ## Claim theorems -/

/-- C1 (counterexample): the claim says a record whose description
contains application form scores at most minus five and is rejected
regardless of other signals, and that validation requires score at
least 3.  The concrete record appFormJob carries application form in
its description and has confidence score 2 < 3, yet the effective
validator accepts it: the later _validate_job definition shadows the
score-based one and never consults the score. -/
theorem c1_counterexample :
    _validate_job appFormJob "germany" = true ∧
    strHasSub (lowerStr appFormJob.job_description) "application form" = true ∧
    _score_job appFormJob = 2 := by
  refine ⟨by decide, by decide, by decide⟩

/-- C1 (amended): the effective validator accepts a record iff it
passes the basic quality filter, the internship role gate and the
country gate, never consulting the confidence score.  The Data Intern
example (with a non-empty company) passes for every target country
since its location is Remote; its dead-code confidence score is 7, not
6, because intern also earns the role-keyword boost.  A record whose
description contains application form loses five score points but can
still be accepted.  The country gate is enforced on every accepted
record. -/
theorem c1_theorem :
    (∀ c : String, _validate_job dataInternJob c = true) ∧
    _score_job dataInternJob = 7 ∧
    (_validate_job appFormJob "germany" = true ∧ _score_job appFormJob < 3) ∧
    (∀ (j : Job) (c : String), _validate_job j c = true → _validate_country j c = true) := by
  refine ⟨?_, by decide, ⟨by decide, by decide⟩, ?_⟩
  · intro c
    simp only [_validate_job]
    have h1 : is_valid_job dataInternJob = true := by decide
    have h2 : matches_target_role dataInternJob.job_title "internship" = true := by decide
    have h3 : _validate_country dataInternJob c = true := by
      simp only [_validate_country]
      have : strHasSub (lowerStr dataInternJob.location) "remote" = true := by decide
      simp [this]
    simp [h1, h2, h3]
  · intro j c h
    simp only [_validate_job] at h
    by_cases h1 : is_valid_job j
    · by_cases h2 : matches_target_role j.job_title "internship"
      · simpa [h1, h2] using h
      · simp [h1, h2] at h
    · simp [h1] at h

/-- C1 (witness): the country-gate conjunct applied at the concrete
accepted record. -/
theorem c1_witness :
    _validate_country dataInternJob "germany" = true :=
  c1_theorem.2.2.2 dataInternJob "germany" (by decide)

/-- C5 (counterexample): a JobPosting metadata dict carrying only its
type tag makes the extractor return a record whose title is the empty
string, contradicting the invariant that every returned record has a
non-empty title. -/
theorem c5_counterexample :
    ((_extract_single_job "https://x.com/j/9" domJsonMin st0).1).map Job.job_title = some "" := by
  decide

/-- C5 (amended): on the DOM-heuristic path (no structured metadata)
every returned record has a non-empty title that also passes the
invalid-title filter, and when no description selector or fallback
matched, the description is the non-empty placeholder sentinel.  The
JSON-LD path copies title, company and description verbatim from the
metadata and can return them empty. -/
theorem c5_theorem :
    ∀ (url : String) (d : Dom) (s : SState) (j : Job),
      d.jsonLd = none →
      (_extract_single_job url d s).1 = some j →
      (j.job_title ≠ "" ∧ _is_invalid_title j.job_title = false) ∧
      (d.container.descFirst = none → d.container.descFallbackText = none →
        j.job_description = "Job description not available") := by
  intro url d s j hld h
  simp only [_extract_single_job, hld] at h
  split at h
  · simp at h
  · split at h
    · simp at h
    · split at h
      · simp at h
      · rename_i h3
        simp only [Option.some.injEq] at h
        subst h
        dsimp only
        refine ⟨⟨?_, ?_⟩, ?_⟩
        · intro hemp
          apply h3
          rw [hemp]
          decide
        · simpa using h3
        · intro hd1 hd2
          simp [_extract_description, hd1, hd2]

/-- C5 (witness): the heuristic-path guarantee applied at a concrete
detail page with a clean title and no description selectors. -/
theorem c5_witness :
    (((_extract_single_job "https://x.com/j/8" domHeur st0).1 = some
      { job_title := "Software Intern Role", company := "Acme", location := "Remote",
        experience := "Full-time",
        job_description := "Job description not available", responsibilities := "",
        skills := [], source_url := "https://x.com/j/8", job_id := none }) ∧
     ("Software Intern Role" ≠ "" ∧ _is_invalid_title "Software Intern Role" = false)) := by
  constructor
  · decide
  · have h := c5_theorem "https://x.com/j/8" domHeur st0
      { job_title := "Software Intern Role", company := "Acme", location := "Remote",
        experience := "Full-time",
        job_description := "Job description not available", responsibilities := "",
        skills := [], source_url := "https://x.com/j/8", job_id := none }
      rfl (by decide)
    exact h.1

/-- C6 (counterexample): two records with the equal non-empty job
identifier X but different composite keys are both kept: when the
identifier of the second record is already used, _deduplicate_jobs
falls back to the composite key, so the output contains two records
with equal non-empty identifiers, contrary to the claim. -/
theorem c6_counterexample :
    _deduplicate_jobs [jobIdA, jobIdB] = [jobIdA, jobIdB] ∧
    jobIdA.job_id = some "X" ∧ jobIdB.job_id = some "X" ∧ jobIdA ≠ jobIdB := by
  refine ⟨by decide, by decide, by decide, by decide⟩

/-- C6 (amended): deduplicate is idempotent; its output is a
subsequence of its input (first occurrence wins, relative order
preserved); records are keyed by the stable identifier when present,
non-empty and not already used, else by the composite key, so the
output never contains two identifier-less records with equal composite
(title, location, company) keys — but records with equal non-empty
identifiers can co-occur when their composites differ, because a
repeated identifier falls back to the composite key. -/
theorem c6_theorem :
    ∀ l : List Job,
      _deduplicate_jobs (_deduplicate_jobs l) = _deduplicate_jobs l ∧
      (_deduplicate_jobs l).Sublist l ∧
      (_deduplicate_jobs l).Pairwise
        (fun a b => a.job_id = none → b.job_id = none → compositeKey a ≠ compositeKey b) := by
  intro l
  exact ⟨dedupAux_idem l [], dedupAux_sublist l [], dedupAux_pairwise l []⟩

/-- C8: the internship role matcher returns true exactly when the
lowercased title contains an allow-listed term and no seniority
exclusion term (the source list also excludes the abbreviations sr.
and sr followed by a space); the four example titles behave as the
claim states. -/
theorem c8_theorem :
    (∀ t : String, matches_target_role t "internship" =
      ((allowedTerms.any (fun a => strHasSub (lowerStr t) a)) &&
       !(forbiddenTerms.any (fun f => strHasSub (lowerStr t) f)))) ∧
    matches_target_role "Software Engineering Intern" "internship" = true ∧
    matches_target_role "Software Engineer" "internship" = false ∧
    matches_target_role "Senior Software Intern" "internship" = false ∧
    matches_target_role "Intern Manager" "internship" = false := by
  refine ⟨?_, by decide, by decide, by decide, by decide⟩
  intro t
  by_cases h : t = ""
  · subst h; decide
  · simp only [matches_target_role, if_neg h, if_pos rfl]
    cases h1 : allowedTerms.any (fun a => strHasSub (lowerStr t) a) <;>
      cases h2 : forbiddenTerms.any (fun f => strHasSub (lowerStr t) f) <;>
        simp [h1, h2]

/-- C9 (counterexample): for the URL https://x.com/applying/apply the
only /apply path segment is the final one, whose prefix is
https://x.com/applying; but toDetailUrl truncates at the first
occurrence of the substring /apply, which begins inside /applying, so
the result is https://x.com instead. -/
theorem c9_counterexample :
    _get_job_detail_url "https://x.com/applying/apply" ≠ "https://x.com/applying" ∧
    _get_job_detail_url "https://x.com/applying/apply" = "https://x.com" := by
  refine ⟨by decide, by decide⟩

/-- C9 (amended): toDetailUrl truncates at the first occurrence of the
substring /apply (checking /application only when /apply is absent);
when the first occurrence is the path segment itself this yields the
prefix before that segment, as in the job/123 example; normalize
rejects javascript:, mailto:, tel:, data: and fragment-only URLs and
strips surrounding whitespace. -/
theorem c9_theorem :
    (∀ url : String, strHasSub url "/apply" = true →
      _get_job_detail_url url = strBefore url "/apply") ∧
    _get_job_detail_url "https://x.com/job/123/apply" = "https://x.com/job/123" ∧
    sanitize_url "javascript:void(0)" = none ∧
    sanitize_url "mailto:user@example.com" = none ∧
    sanitize_url "tel:1234567890" = none ∧
    sanitize_url "data:image/png" = none ∧
    sanitize_url "#section" = none ∧
    sanitize_url "  https://x.com  " = some "https://x.com" := by
  refine ⟨?_, by decide, by decide, by decide, by decide, by decide, by decide, by decide⟩
  intro url h
  simp [_get_job_detail_url, h]

/-- C9 (witness): the truncation conjunct applied at the job/123
example URL. -/
theorem c9_witness :
    _get_job_detail_url "https://x.com/job/123/apply" =
      strBefore "https://x.com/job/123/apply" "/apply" :=
  c9_theorem.1 "https://x.com/job/123/apply" (by decide)

/-- C2: a raised fetch exception inside one recursive visit is caught
there and that branch contributes the empty list; a raised exception
of the initial scan fetch is caught by the top-level handler, which
runs exactly the degraded one-page emergency extraction instead of
propagating.  Both functions are total Lean functions into job lists
for every world, including worlds whose every fetch raises, so no
exception ever reaches the caller for fetch or site-structure
failures. -/
theorem c2_theorem :
    (∀ (w : World) (fuel : Nat) (u c : String) (dp : Nat) (s : SState),
        w.arun u = .error () → (_recursive_crawl w fuel u c dp s).1 = []) ∧
    (∀ (w : World) (fuel : Nat) (site c : String) (s0 : SState),
        should_skip_url (_get_job_detail_url site) = false →
        w.arun (_get_job_detail_url site) = .error () →
        extract_jobs_from_site w fuel site c s0 =
          ((emergencyExtract w (_get_job_detail_url site) (resetState s0)).1,
           (emergencyExtract w (_get_job_detail_url site) (resetState s0)).2.1,
           Ev.lightFetch (_get_job_detail_url site) ::
             (emergencyExtract w (_get_job_detail_url site) (resetState s0)).2.2)) := by
  constructor
  · intro w fuel u c dp s h
    cases fuel with
    | zero => rfl
    | succ n =>
      simp only [_recursive_crawl, h]
      split
      · rfl
      · split
        · rfl
        · split
          · rfl
          · split
            · rfl
            · split
              · rfl
              · rfl
  · intro w fuel site c s0 hsk h
    simp only [extract_jobs_from_site, h]
    rw [if_neg (by simp [hsk])]

/-- C2 (witness): the branch-isolation and emergency-path conjuncts
applied in a world whose every fetch raises. -/
theorem c2_witness :
    (_recursive_crawl wErr 5 "https://e.com" "us" 0 st0).1 = [] ∧
    extract_jobs_from_site wErr 5 "https://e.com" "us" st0 =
      ((emergencyExtract wErr (_get_job_detail_url "https://e.com") (resetState st0)).1,
       (emergencyExtract wErr (_get_job_detail_url "https://e.com") (resetState st0)).2.1,
       Ev.lightFetch (_get_job_detail_url "https://e.com") ::
         (emergencyExtract wErr (_get_job_detail_url "https://e.com") (resetState st0)).2.2) := by
  constructor
  · exact c2_theorem.1 wErr 5 "https://e.com" "us" 0 st0 rfl
  · exact c2_theorem.2 wErr 5 "https://e.com" "us" st0 (by decide) rfl

/-- C3 (counterexample): in the chained-gateway world a visit call is
made with recursion depth 3 > maxDepth = 2 (a gateway at depth 2
recurses at depth 3), so the depth passed to visit calls can exceed
maxDepth, contrary to the first half of the claim. -/
theorem c3_counterexample :
    Ev.visitCall "https://x.com/d" 3 ∈
      (extract_jobs_from_site wGate 9 "https://x.com/a" "us" st0).2.2 := by
  decide

/-- C3 (amended): the depth passed to a visit call never exceeds
maxDepth + 1 = 3 (within any whole-site extraction); a call at depth
greater than maxDepth returns the empty list immediately, with no
fetch performed and the state untouched; and the depth check,
visited-URL check, URL-guard check and seen/visited-gateway checks all
return empty before any fetch event is emitted. -/
theorem c3_theorem :
    (∀ (w : World) (fuel : Nat) (u c : String) (dp : Nat) (s : SState), dp ≤ 3 →
        ∀ x ∈ visitDepths ((_recursive_crawl w fuel u c dp s).2.2), x ≤ 3) ∧
    (∀ (w : World) (fuel : Nat) (u c : String) (dp : Nat) (s : SState), dp > 2 →
        _recursive_crawl w fuel u c dp s = ([], s, [Ev.visitCall u dp])) ∧
    (∀ (w : World) (fuel : Nat) (u c : String) (dp : Nat) (s : SState),
        s.visited_urls.contains u = true →
        _recursive_crawl w fuel u c dp s = ([], s, [Ev.visitCall u dp])) ∧
    (∀ (w : World) (fuel : Nat) (u c : String) (dp : Nat) (s : SState), dp ≤ 2 →
        s.visited_urls.contains u = false →
        should_skip_url u = true →
        _recursive_crawl w (fuel + 1) u c dp s =
          ([], { s with visited_urls := u :: s.visited_urls }, [Ev.visitCall u dp])) ∧
    (∀ (w : World) (fuel : Nat) (u c : String) (dp : Nat) (s : SState), dp ≤ 2 →
        s.visited_urls.contains u = false →
        should_skip_url u = false →
        (s.seen_urls.contains u || s.visited_gateways.contains u) = true →
        _recursive_crawl w (fuel + 1) u c dp s =
          ([], { s with visited_urls := u :: s.visited_urls }, [Ev.visitCall u dp])) ∧
    (∀ (w : World) (fuel : Nat) (site c : String) (s0 : SState),
        ∀ x ∈ visitDepths ((extract_jobs_from_site w fuel site c s0).2.2), x ≤ 3) := by
  refine ⟨?_, ?_, ?_, ?_, ?_, ?_⟩
  · intro w fuel u c dp s h
    exact crawl_depth_bound w c fuel u dp s h
  · intro w fuel u c dp s h
    cases fuel with
    | zero => rfl
    | succ n =>
      simp only [_recursive_crawl]
      rw [if_pos h]
  · intro w fuel u c dp s h
    cases fuel with
    | zero => rfl
    | succ n =>
      simp only [_recursive_crawl]
      by_cases hdp : dp > 2
      · rw [if_pos hdp]
      · rw [if_neg hdp, if_pos h]
  · intro w fuel u c dp s hdp hv hsk
    simp only [_recursive_crawl]
    rw [if_neg (by omega), if_neg (by rw [hv]; simp), if_pos hsk]
  · intro w fuel u c dp s hdp hv hsk hsg
    simp only [_recursive_crawl]
    rw [if_neg (by omega), if_neg (by rw [hv]; simp), if_neg (by rw [hsk]; simp),
      if_neg (by omega : ¬dp > 3), if_pos hsg]
  · intro w fuel site c s0
    exact extract_depth_bound w fuel site c s0

/-- C3 (witness): the depth guard and URL-guard conjuncts applied at
concrete calls. -/
theorem c3_witness :
    _recursive_crawl wErr 7 "https://e.com" "us" 3 st0 =
      ([], st0, [Ev.visitCall "https://e.com" 3]) ∧
    _recursive_crawl wErr 7 "https://x.com/benefits" "us" 0 st0 =
      ([], { st0 with visited_urls := "https://x.com/benefits" :: st0.visited_urls },
       [Ev.visitCall "https://x.com/benefits" 0]) := by
  constructor
  · exact c3_theorem.2.1 wErr 7 "https://e.com" "us" 3 st0 (by omega)
  · exact c3_theorem.2.2.2.1 wErr 6 "https://x.com/benefits" "us" 0 st0 (by omega)
      (by decide) (by decide)

/-- C4 (counterexample): in the chained-gateway world the root URL is
passed to the light-tier fetcher twice — once by the initial scan of
extract_jobs_from_site and once by the recursive crawl of the same URL
— so the claim that no URL is light-fetched more than once per session
is false. -/
theorem c4_counterexample :
    ((extract_jobs_from_site wGate 9 "https://x.com/a" "us" st0).2.2.filter
      (fun e => decide (e = Ev.lightFetch "https://x.com/a"))).length = 2 := by
  decide

/-- C4 (amended): the heavy tier is invoked at most once per URL per
session — the escalation set is checked and extended before any
browser launch, so the heavy-fetch URLs of a whole extraction are
pairwise distinct; and a URL already in the visited-URL set is never
fetched again by a visit (the visit returns empty immediately).  The
light tier, however, can receive the same URL more than once (initial
scan versus recursive visit, rollback, and per-card fetches), as the
counterexample shows. -/
theorem c4_theorem :
    (∀ (w : World) (fuel : Nat) (site c : String) (s0 : SState),
        (heavyUrls ((extract_jobs_from_site w fuel site c s0).2.2)).Nodup) ∧
    (∀ (w : World) (fuel : Nat) (u c : String) (dp : Nat) (s : SState),
        s.visited_urls.contains u = true →
        _recursive_crawl w fuel u c dp s = ([], s, [Ev.visitCall u dp])) := by
  constructor
  · intro w fuel site c s0
    exact (hs_extract w fuel site c s0).2.2.2
  · intro w fuel u c dp s h
    cases fuel with
    | zero => rfl
    | succ n =>
      simp only [_recursive_crawl]
      by_cases hdp : dp > 2
      · rw [if_pos hdp]
      · rw [if_neg hdp, if_pos h]

/-- C4 (witness): the visited-guard conjunct applied at a state that
already contains the URL, plus the heavy-tier distinctness at the
concrete gateway world. -/
theorem c4_witness :
    _recursive_crawl wErr 3 "https://x.com/a" "us" 0 stVisited =
      ([], stVisited, [Ev.visitCall "https://x.com/a" 0]) ∧
    (heavyUrls ((extract_jobs_from_site wGate 9 "https://x.com/a" "us" st0).2.2)).Nodup := by
  constructor
  · exact c4_theorem.2 wErr 3 "https://x.com/a" "us" 0 stVisited (by decide)
  · exact c4_theorem.1 wGate 9 "https://x.com/a" "us" st0

/-- C7: a page whose text contains a career-marketing marker phrase
and which has zero job cards is classified CAREER_INFO — this rule is
evaluated before every other rule, so it wins regardless of the other
signals — and a visit of such a page (fetched successfully and not
escalated) returns the empty list with no further visit or fetch: the
crawl never descends into any of its links. -/
theorem c7_theorem :
    (∀ (d : Dom) (url : String),
        (infoKeywords.any (fun k => strHasSub (lowerStr d.text) k)) = true →
        d.jobCards = [] →
        _classify_page_type d url = PageType.CAREER_INFO) ∧
    (∀ (w : World) (fuel : Nat) (u c : String) (dp : Nat) (s : SState) (d : Dom),
        dp ≤ 2 →
        s.visited_urls.contains u = false →
        should_skip_url u = false →
        s.seen_urls.contains u = false →
        s.visited_gateways.contains u = false →
        w.arun u = .ok ⟨true, d⟩ →
        _is_spa_url u = false →
        100 ≤ wordCount d.text →
        strHasSub (lowerStr d.text) "enable javascript" = false →
        strHasSub (lowerStr d.text) "please enable" = false →
        (infoKeywords.any (fun k => strHasSub (lowerStr d.text) k)) = true →
        d.jobCards = [] →
        _recursive_crawl w (fuel + 1) u c dp s =
          ([], { s with visited_urls := u :: s.visited_urls, seen_urls := u :: s.seen_urls },
           [Ev.visitCall u dp, Ev.lightFetch u])) := by
  constructor
  · intro d url hinfo hcards
    exact classify_career_info d url hinfo hcards
  · intro w fuel u c dp s d hdp hv hsk hseen hgw hfetch hspa hwc hjs1 hjs2 hinfo hcards
    simp only [_recursive_crawl, hfetch]
    rw [if_neg (by omega), if_neg (by rw [hv]; simp), if_neg (by rw [hsk]; simp),
      if_neg (by omega : ¬dp > 3), if_neg (by rw [hseen, hgw]; simp)]
    simp only [Bool.not_true, Bool.false_eq_true, if_false]
    rw [if_neg (by simp [hspa, hjs1, hjs2]; omega)]
    simp only [crawlDispatch, classify_career_info d u hinfo hcards]
    simp

/-- C7 (witness): the crawl conjunct applied at the concrete marketing
page, which carries a category link that is not descended into. -/
theorem c7_witness :
    _recursive_crawl wInfo 5 "https://x.com/e" "us" 0 st0 =
      ([], { st0 with visited_urls := "https://x.com/e" :: st0.visited_urls, seen_urls := "https://x.com/e" :: st0.seen_urls },
       [Ev.visitCall "https://x.com/e" 0, Ev.lightFetch "https://x.com/e"]) :=
  c7_theorem.2 wInfo 4 "https://x.com/e" "us" 0 st0 infoDom (by omega) (by decide) (by decide)
    (by decide) (by decide) rfl (by decide) (by decide) (by decide) (by decide) (by decide) rfl

/-- C10 (counterexample): the apply-URL truncation runs before the
top-level blocklist check, so extract_jobs_from_site called on the
blocked URL https://x.com/apply/benefits (whose lowercase form
contains benefits) crawls the truncated URL https://x.com and returns
a non-empty job list — the top-level entry of such a URL does not
return the empty list. -/
theorem c10_counterexample :
    strHasSub (lowerStr "https://x.com/apply/benefits") "benefits" = true ∧
    (extract_jobs_from_site wDetail 9 "https://x.com/apply/benefits" "germany" st0).1 = [detailJob] ∧
    [detailJob] ≠ ([] : List Job) := by
  refine ⟨by decide, by decide, by decide⟩

/-- C10 (amended): any URL whose lowercase form contains benefits,
my-profile, candidateexperience or skip-to-main is reported blocked by
the URL-skip guard; every recursive visit of a blocked URL returns the
empty list with only its own visit-call event and no fetch; the
top-level entry returns the empty list without fetching only when the
apply-truncated URL is still blocked (the truncation can strip the
blocked substring, as the counterexample shows). -/
theorem c10_theorem :
    (∀ url : String,
        (strHasSub (lowerStr url) "benefits" = true ∨
         strHasSub (lowerStr url) "my-profile" = true ∨
         strHasSub (lowerStr url) "candidateexperience" = true ∨
         strHasSub (lowerStr url) "skip-to-main" = true) →
        should_skip_url url = true) ∧
    (∀ (w : World) (fuel : Nat) (u c : String) (dp : Nat) (s : SState),
        should_skip_url u = true →
        (_recursive_crawl w fuel u c dp s).1 = [] ∧
        (_recursive_crawl w fuel u c dp s).2.2 = [Ev.visitCall u dp]) ∧
    (∀ (w : World) (fuel : Nat) (site c : String) (s0 : SState),
        should_skip_url (_get_job_detail_url site) = true →
        extract_jobs_from_site w fuel site c s0 = ([], resetState s0, [])) := by
  refine ⟨?_, ?_, ?_⟩
  · intro url h
    unfold should_skip_url
    cases hs : sanitize_url url with
    | none => rfl
    | some u =>
      have hu := sanitize_some hs
      subst hu
      rw [List.any_eq_true]
      rcases h with h | h | h | h
      · exact ⟨"benefits", by decide,
          strHasSub_lower_strip "benefits" url (by decide) (by decide) h⟩
      · exact ⟨"my-profile", by decide,
          strHasSub_lower_strip "my-profile" url (by decide) (by decide) h⟩
      · exact ⟨"candidateexperience", by decide,
          strHasSub_lower_strip "candidateexperience" url (by decide) (by decide) h⟩
      · exact ⟨"skip-to-main", by decide,
          strHasSub_lower_strip "skip-to-main" url (by decide) (by decide) h⟩
  · intro w fuel u c dp s h
    cases fuel with
    | zero => exact ⟨rfl, rfl⟩
    | succ n =>
      simp only [_recursive_crawl]
      by_cases hdp : dp > 2
      · rw [if_pos hdp]; exact ⟨rfl, rfl⟩
      · rw [if_neg hdp]
        by_cases hv : s.visited_urls.contains u = true
        · rw [if_pos hv]; exact ⟨rfl, rfl⟩
        · rw [if_neg hv, if_pos h]; exact ⟨rfl, rfl⟩
  · intro w fuel site c s0 h
    simp only [extract_jobs_from_site]
    rw [if_pos h]

/-- C10 (witness): the three conjuncts applied at the concrete blocked
URL https://x.com/benefits. -/
theorem c10_witness :
    should_skip_url "https://x.com/benefits" = true ∧
    ((_recursive_crawl wErr 4 "https://x.com/benefits" "us" 0 st0).1 = [] ∧
     (_recursive_crawl wErr 4 "https://x.com/benefits" "us" 0 st0).2.2 =
       [Ev.visitCall "https://x.com/benefits" 0]) ∧
    extract_jobs_from_site wErr 3 "https://x.com/benefits" "us" st0 = ([], resetState st0, []) := by
  refine ⟨?_, ?_, ?_⟩
  · exact c10_theorem.1 "https://x.com/benefits" (Or.inl (by decide))
  · exact c10_theorem.2.1 wErr 4 "https://x.com/benefits" "us" 0 st0 (by decide)
  · exact c10_theorem.2.2 wErr 3 "https://x.com/benefits" "us" st0 (by decide)

/-! ## Sanity examples from the repository test-suite -/

example : sanitize_url "https://example.com" = some "https://example.com" := by decide
example : sanitize_url "mailto:user@example.com" = none := by decide
example : sanitize_url "ftp://example.com" = none := by decide
example : matches_target_role "Data Science Co-op" "internship" = true := by decide
example : matches_target_role "Lead Intern" "internship" = false := by decide
example : matches_target_role "summer intern" "internship" = true := by decide
